import Mathlib

/-!
Verification of the MyKpopTrade harvesting / reconciliation / revalidation
pipeline (`scripts/hybrid_kpop_collector.py` and `scripts/kpop_spotify_cleaner.py`).

The Python scripts are shallowly embedded: pure helper functions become Lean
functions on `String` / `List` / `Nat` / `Rat`; the MongoDB collections become
lists of records; HTTP traffic becomes explicit lists of provider responses.
Python `datetime.now()` timestamps are passed in explicitly as `Nat` values.
-/

/-! ## String helpers shared by both scripts -/

/-- Python `str.lower()` restricted to the ASCII range (all names handled by the
scripts and claims are ASCII). -/
def pyLower (s : String) : String := ⟨s.data.map Char.toLower⟩

/-- Python `str.strip()` (trim surrounding whitespace). -/
def pyStrip (s : String) : String :=
  ⟨((s.data.dropWhile Char.isWhitespace).reverse.dropWhile Char.isWhitespace).reverse⟩

/-- Substring containment on character lists: Python `sub in s`. -/
def containsSub (s sub : List Char) : Bool :=
  (List.range (s.length + 1)).any (fun i => sub.isPrefixOf (s.drop i))

/-- Substring containment on strings: Python `sub in s`. -/
def strContains (s sub : String) : Bool := containsSub s.toList sub.toList

/-! ## Lexicographic order on character lists

Python compares strings lexicographically by code point; `merge_albums` sorts on
the raw `release_date` strings with this order. -/

def lexLe : List Char → List Char → Bool
  | [], _ => true
  | _ :: _, [] => false
  | a :: as, b :: bs =>
      if a.toNat < b.toNat then true
      else if b.toNat < a.toNat then false
      else lexLe as bs

theorem lexLe_refl (a : List Char) : lexLe a a = true := by
  induction a with
  | nil => rfl
  | cons x xs ih => simp [lexLe, ih]

theorem lexLe_total (a b : List Char) : lexLe a b = true ∨ lexLe b a = true := by
  induction a generalizing b with
  | nil => left; rfl
  | cons x xs ih =>
    cases b with
    | nil => right; rfl
    | cons y ys =>
      by_cases h1 : x.toNat < y.toNat
      · left; simp [lexLe, h1]
      · by_cases h2 : y.toNat < x.toNat
        · right; simp [lexLe, h2]
        · rcases ih ys with h | h
          · left; simp [lexLe, h1, h2, h]
          · right; simp [lexLe, h1, h2, h]

theorem lexLe_trans {a b c : List Char} (hab : lexLe a b = true)
    (hbc : lexLe b c = true) : lexLe a c = true := by
  induction a generalizing b c with
  | nil => rfl
  | cons x xs ih =>
    cases b with
    | nil => simp [lexLe] at hab
    | cons y ys =>
      cases c with
      | nil => simp [lexLe] at hbc
      | cons z zs =>
        simp only [lexLe] at hab hbc ⊢
        by_cases hxy : x.toNat < y.toNat
        · by_cases hyz : y.toNat < z.toNat
          · have : x.toNat < z.toNat := Nat.lt_trans hxy hyz
            simp [this]
          · by_cases hzy : z.toNat < y.toNat
            · simp [hyz, hzy] at hbc
            · have hyzeq : y.toNat = z.toNat := Nat.le_antisymm (Nat.le_of_not_lt hzy) (Nat.le_of_not_lt hyz)
              have : x.toNat < z.toNat := hyzeq ▸ hxy
              simp [this]
        · by_cases hyx : y.toNat < x.toNat
          · simp [hxy, hyx] at hab
          · have hxyeq : x.toNat = y.toNat := Nat.le_antisymm (Nat.le_of_not_lt hyx) (Nat.le_of_not_lt hxy)
            by_cases hyz : y.toNat < z.toNat
            · have : x.toNat < z.toNat := hxyeq ▸ hyz
              simp [this]
            · by_cases hzy : z.toNat < y.toNat
              · simp [hyz, hzy] at hbc
              · have hxz1 : ¬ x.toNat < z.toNat := by omega
                have hzx1 : ¬ z.toNat < x.toNat := by omega
                rw [if_neg hxy, if_neg hyx] at hab
                rw [if_neg hyz, if_neg hzy] at hbc
                rw [if_neg hxz1, if_neg hzx1]
                exact ih hab hbc

theorem lexLe_nil_right {a : List Char} (h : lexLe a [] = true) : a = [] := by
  cases a with
  | nil => rfl
  | cons x xs => simp [lexLe] at h

/-! ## Stable insertion sort

Python `list.sort(key=…, reverse=True)` is a stable sort placing larger keys
first.  `insertD ge` inserts `x` before the first element `y` with `ge x y`
(i.e. `key x ≥ key y`), so earlier input elements stay before later ties. -/

def insertD {α : Type} (ge : α → α → Bool) (x : α) : List α → List α
  | [] => [x]
  | y :: ys => if ge x y then x :: y :: ys else y :: insertD ge x ys

def isortD {α : Type} (ge : α → α → Bool) : List α → List α
  | [] => []
  | x :: xs => insertD ge x (isortD ge xs)

theorem mem_insertD {α : Type} (ge : α → α → Bool) (x : α) (l : List α) (z : α) :
    z ∈ insertD ge x l ↔ z = x ∨ z ∈ l := by
  induction l with
  | nil => simp [insertD]
  | cons y ys ih =>
    by_cases h : ge x y = true
    · simp [insertD, h]
    · simp only [insertD, h, if_false, Bool.false_eq_true, List.mem_cons, ih]
      tauto

theorem perm_insertD {α : Type} (ge : α → α → Bool) (x : α) (l : List α) :
    (insertD ge x l).Perm (x :: l) := by
  induction l with
  | nil => simp [insertD]
  | cons y ys ih =>
    by_cases h : ge x y = true
    · simp [insertD, h]
    · simp only [insertD, h, if_false, Bool.false_eq_true]
      exact (ih.cons y).trans (List.Perm.swap x y ys)

theorem perm_isortD {α : Type} (ge : α → α → Bool) (l : List α) :
    (isortD ge l).Perm l := by
  induction l with
  | nil => simp [isortD]
  | cons x xs ih =>
    exact (perm_insertD ge x (isortD ge xs)).trans (ih.cons x)

theorem pairwise_insertD {α : Type} (ge : α → α → Bool)
    (total : ∀ a b, ge a b = true ∨ ge b a = true)
    (htrans : ∀ a b c, ge a b = true → ge b c = true → ge a c = true)
    (x : α) (l : List α) (hl : l.Pairwise (fun a b => ge a b = true)) :
    (insertD ge x l).Pairwise (fun a b => ge a b = true) := by
  induction l with
  | nil => simp [insertD]
  | cons y ys ih =>
    rcases List.pairwise_cons.mp hl with ⟨hy, hys⟩
    by_cases h : ge x y = true
    · simp only [insertD, h, if_true]
      refine List.pairwise_cons.mpr ⟨?_, hl⟩
      intro z hz
      rcases List.mem_cons.mp hz with rfl | hz2
      · exact h
      · exact htrans x y z h (hy z hz2)
    · simp only [insertD, h, if_false, Bool.false_eq_true]
      refine List.pairwise_cons.mpr ⟨?_, ih hys⟩
      intro z hz
      rcases (mem_insertD ge x ys z).mp hz with rfl | hz2
      · rcases total z y with h1 | h1
        · exact absurd h1 h
        · exact h1
      · exact hy z hz2

theorem pairwise_isortD {α : Type} (ge : α → α → Bool)
    (total : ∀ a b, ge a b = true ∨ ge b a = true)
    (htrans : ∀ a b c, ge a b = true → ge b c = true → ge a c = true)
    (l : List α) : (isortD ge l).Pairwise (fun a b => ge a b = true) := by
  induction l with
  | nil => simp [isortD]
  | cons x xs ih => exact pairwise_insertD ge total htrans x (isortD ge xs) ih

theorem filter_insertD_pos {α : Type} (ge : α → α → Bool) (P : α → Bool) (x : α)
    (hx : P x = true) (l : List α) (h : ∀ y ∈ l, P y = true → ge x y = true) :
    (insertD ge x l).filter P = x :: l.filter P := by
  induction l with
  | nil => simp [insertD, hx]
  | cons y ys ih =>
    by_cases hge : ge x y = true
    · simp [insertD, hge, hx]
    · simp only [insertD, hge, if_false, Bool.false_eq_true]
      by_cases hPy : P y = true
      · exact absurd (h y (by simp) hPy) hge
      · simp only [List.filter_cons, hPy, if_false, Bool.false_eq_true]
        exact ih (fun z hz hPz => h z (by simp [hz]) hPz)

theorem filter_insertD_neg {α : Type} (ge : α → α → Bool) (P : α → Bool) (x : α)
    (hx : P x = false) (l : List α) :
    (insertD ge x l).filter P = l.filter P := by
  induction l with
  | nil => simp [insertD, hx]
  | cons y ys ih =>
    by_cases hge : ge x y = true
    · simp [insertD, hge, hx]
    · by_cases hPy : P y = true
      · simp [insertD, hge, hPy, ih]
      · simp [insertD, hge, hPy, ih]

theorem filter_isortD {α : Type} (ge : α → α → Bool) (P : α → Bool)
    (H : ∀ a b, P a = true → P b = true → ge a b = true) (l : List α) :
    (isortD ge l).filter P = l.filter P := by
  induction l with
  | nil => simp [isortD]
  | cons x xs ih =>
    by_cases hx : P x = true
    · rw [isortD, filter_insertD_pos ge P x hx _ (fun y _ hPy => H x y hx hPy), ih]
      simp [List.filter_cons, hx]
    · rw [isortD, filter_insertD_neg ge P x (by simpa using hx), ih]
      simp [List.filter_cons, hx]

/-! ## `difflib.SequenceMatcher` similarity ratio

`calculate_name_similarity` (hybrid_kpop_collector.py, lines 898-913) calls
`difflib.SequenceMatcher(None, n1, n2).ratio()`.  The ratio is `2*M/T` where
`M` is the total size of the matching blocks and `T` the total length; the
matching blocks are found by recursively taking the longest common block
(leftmost in the first string, then leftmost in the second, on ties).  The
strings involved are far below difflib's 200-character autojunk threshold, so
no junk heuristics apply. -/

def commonPrefixLen : List Char → List Char → Nat
  | a :: as, b :: bs => if a = b then commonPrefixLen as bs + 1 else 0
  | _, _ => 0

/-- Slice `l[lo:hi]` of a character list. -/
def sliceRange (l : List Char) (lo hi : Nat) : List Char := (l.take hi).drop lo

/-- Longest matching block of `a[alo:ahi]` against `b[blo:bhi]`: maximal size,
ties resolved towards the smallest start in `a`, then the smallest start in `b`
(difflib's `find_longest_match` without junk). -/
def lmBest (a b : List Char) (alo ahi blo bhi : Nat) : Nat × Nat × Nat :=
  (List.range' alo (ahi - alo)).foldl (fun best i =>
    (List.range' blo (bhi - blo)).foldl (fun best j =>
      let k := commonPrefixLen (sliceRange a i ahi) (sliceRange b j bhi)
      if best.2.2 < k then (i, j, k) else best) best) (alo, blo, 0)

/-- Total size of the matching blocks (the `M` of difflib's ratio). -/
def smTotal (a b : List Char) : Nat → Nat → Nat → Nat → Nat → Nat
  | _, _, _, _, 0 => 0
  | alo, ahi, blo, bhi, fuel + 1 =>
      let r := lmBest a b alo ahi blo bhi
      if r.2.2 = 0 then 0
      else smTotal a b alo r.1 blo r.2.1 fuel + r.2.2 +
           smTotal a b (r.1 + r.2.2) ahi (r.2.1 + r.2.2) bhi fuel

/-- `difflib.SequenceMatcher(None, a, b).ratio()` as an exact rational. -/
def matcherScore (a b : List Char) : ℚ :=
  let t := a.length + b.length
  if t = 0 then 1
  else (2 * (smTotal a b 0 a.length 0 b.length (t + 1)) : ℚ) / (t : ℚ)

/-- `HybridKpopCollector.calculate_name_similarity` (lines 898-913): ratio on the
lowercased, stripped names, raised to at least 0.8 when one normalized name is a
substring of the other. -/
def calculate_name_similarity (name1 name2 : String) : ℚ :=
  let n1 := pyStrip (pyLower name1)
  let n2 := pyStrip (pyLower name2)
  let similarity := matcherScore n1.toList n2.toList
  if containsSub n2.toList n1.toList || containsSub n1.toList n2.toList then
    max similarity (4 / 5)
  else similarity

/-! ## Data model -/

/-- One entry of a Spotify album's `artists` array. -/
structure AlbumArtist where
  id : String
  name : String
deriving DecidableEq, Repr

/-- A raw Spotify release object, with the fields the scripts read.  A missing
`release_date` is the empty string (the scripts use `get('release_date', '')`). -/
structure SpotifyAlbum where
  id : String
  name : String
  release_date : String
  total_tracks : Nat
  album_type : String
  album_group : String
  artists : List AlbumArtist
deriving DecidableEq, Repr

/-- A raw Spotify artist object, with the fields the scripts read. -/
structure SpotifyArtist where
  id : String
  name : String
  genres : List String
  popularity : Nat
deriving DecidableEq, Repr

/-! ## Regex helpers

The scripts use a handful of `re.search` patterns; each is embedded as a
decidable function on character lists. -/

/-- Python `\w`: letters, digits, underscore (ASCII fragment). -/
def isWordChar (c : Char) : Bool := c.isAlphanum || c = '_'

/-- Word boundary `\b` immediately before position `i`. -/
def boundaryBefore (s : List Char) (i : Nat) : Bool :=
  decide (i = 0) || !(isWordChar (s.getD (i - 1) ' '))

/-- Word boundary `\b` immediately after position `i - 1` (i.e. at offset `i`). -/
def boundaryAfter (s : List Char) (i : Nat) : Bool :=
  decide (s.length ≤ i) || !(isWordChar (s.getD i ' '))

/-- Occurrence of the literal word `w` at position `i` delimited by `\b` on both
sides. -/
def wordAt (s w : List Char) (i : Nat) : Bool :=
  w.isPrefixOf (s.drop i) && boundaryBefore s i && boundaryAfter s (i + w.length)

/-- `re.search(r'\b(girl|boy)\b', s)`. -/
def matchGirlBoy (s : List Char) : Bool :=
  (List.range (s.length + 1)).any fun i =>
    wordAt s "girl".toList i || wordAt s "boy".toList i

/-- Literal word `w` starting at offset `j` with a `\b` after it (used after a
digit run, where no boundary sits between the digits and the word). -/
def tailWordAt (s w : List Char) (j : Nat) : Bool :=
  w.isPrefixOf (s.drop j) && boundaryAfter s (j + w.length)

/-- `re.search(r'\b\d+(kids?|teens?)\b', s)`: a digit run (digits are word
characters, so any match starts at the run's start) followed by
`kid/kids/teen/teens` and a closing boundary. -/
def matchNumKidsTeens (s : List Char) : Bool :=
  (List.range (s.length + 1)).any fun i =>
    boundaryBefore s i &&
    (let dn := ((s.drop i).takeWhile Char.isDigit).length
     decide (1 ≤ dn) &&
     (tailWordAt s "kids".toList (i + dn) || tailWordAt s "kid".toList (i + dn) ||
      tailWordAt s "teens".toList (i + dn) || tailWordAt s "teen".toList (i + dn)))

/-- `re.search(r'^[A-Z]{2,8}$', s)`: the whole string is 2 to 8 uppercase
letters. -/
def upperRun2to8 (s : List Char) : Bool :=
  decide (2 ≤ s.length) && decide (s.length ≤ 8) && s.all fun c => 'A' ≤ c && c ≤ 'Z'

def isXZ (c : Char) : Bool := c = 'x' || c = 'z'

/-- `re.search(r'[xz]{2,}', s)`: two adjacent characters drawn from `x`, `z`. -/
def matchXZRun (s : List Char) : Bool :=
  (List.range s.length).any fun i => isXZ (s.getD i ' ') && isXZ (s.getD (i + 1) ' ')

/-- `re.search(r'^\s*W\s*$', s)` for a literal `W`: the string is `W` surrounded
only by whitespace. -/
def matchFullTrim (s : List Char) (w : String) : Bool :=
  ((s.dropWhile Char.isWhitespace).reverse.dropWhile Char.isWhitespace).reverse = w.toList

/-- `re.search(r'karaoke\s+version', s)`. -/
def matchKaraokeVersion (s : List Char) : Bool :=
  (List.range (s.length + 1)).any fun i =>
    "karaoke".toList.isPrefixOf (s.drop i) &&
    (let rest := s.drop (i + 7)
     decide (1 ≤ (rest.takeWhile Char.isWhitespace).length) &&
     "version".toList.isPrefixOf (rest.dropWhile Char.isWhitespace))

/-- `re.search(r'soundtrack.*pt\.', s)`. -/
def matchSoundtrackPt (s : List Char) : Bool :=
  (List.range (s.length + 1)).any fun i =>
    "soundtrack".toList.isPrefixOf (s.drop i) && containsSub (s.drop (i + 10)) "pt.".toList

/-- `re.search(r'original.*soundtrack.*pt\.', s)`. -/
def matchOriginalSoundtrackPt (s : List Char) : Bool :=
  (List.range (s.length + 1)).any fun i =>
    "original".toList.isPrefixOf (s.drop i) && matchSoundtrackPt (s.drop (i + 8))

/-! ## Candidate classifier (`hybrid_kpop_collector.py`, lines 234-298) -/

def kpopKeywords : List String :=
  ["twice", "blackpink", "bts", "stray", "ateez", "itzy", "aespa",
   "ive", "newjeans", "sserafim", "gidle", "nmixx", "kep1er",
   "seventeen", "nct", "enhypen", "txt", "treasure", "the boyz"]

/-- `HybridKpopCollector.looks_like_kpop_name` (lines 273-298).  Note that the
`^[A-Z]{2,8}$` pattern is applied to the lowercased name, exactly as in the
source (where it can never match). -/
def looks_like_kpop_name (name : String) : Bool :=
  let name_lower := (pyLower name).toList
  kpopKeywords.any (fun k => containsSub name_lower k.toList) ||
  (matchGirlBoy name_lower || matchNumKidsTeens name_lower ||
   upperRun2to8 name_lower || matchXZRun name_lower)

def labelKeywords : List String :=
  ["entertainment", "records", "music", "label", "company",
   "corporation", "inc", "ltd", "production", "official"]

/-- `re.search(r'^\d+|soundtrack|ost|various|compilation|vol\.|pt\.|part', s)`
(line 268). -/
def suspiciousArtistName (s : List Char) : Bool :=
  (match s with | c :: _ => c.isDigit | [] => false) ||
  containsSub s "soundtrack".toList || containsSub s "ost".toList ||
  containsSub s "various".toList || containsSub s "compilation".toList ||
  containsSub s "vol.".toList || containsSub s "pt.".toList ||
  containsSub s "part".toList

/-- `HybridKpopCollector.is_valid_kpop_spotify_artist` (lines 234-271). -/
def is_valid_kpop_spotify_artist (artist : SpotifyArtist) : Bool :=
  let name := artist.name
  let genres := artist.genres.map pyLower
  let popularity := artist.popularity
  let has_kpop_genre := genres.any fun g => strContains g "k-pop" || strContains g "korean"
  let high_popularity_kpop := decide (30 < popularity) && looks_like_kpop_name name
  if !(has_kpop_genre || high_popularity_kpop) then false
  else if name = "" || (pyStrip name).length < 2 then false
  else if popularity < 5 then false
  else if labelKeywords.any (fun k => strContains (pyLower name) k) then false
  else if suspiciousArtistName (pyLower name).toList then false
  else true

/-- The suspicious-pattern list exactly as enumerated by the claim: leading
digits, "soundtrack", "various", "vol.", "pt.", "part" (without the source's
additional "ost" and "compilation" alternatives). -/
def claimSuspiciousArtistName (s : List Char) : Bool :=
  (match s with | c :: _ => c.isDigit | [] => false) ||
  containsSub s "soundtrack".toList || containsSub s "various".toList ||
  containsSub s "vol.".toList || containsSub s "pt.".toList ||
  containsSub s "part".toList

/-- The Group-classifier acceptance condition following the claim's wording: a
conjunction of the five independent conditions, with the claim's own
suspicious-pattern list. -/
def claimGroupAccept (artist : SpotifyArtist) : Bool :=
  let genres := artist.genres.map pyLower
  let has_kpop_genre := genres.any fun g => strContains g "k-pop" || strContains g "korean"
  decide (2 ≤ (pyStrip artist.name).length) &&
  (has_kpop_genre || (decide (30 < artist.popularity) && looks_like_kpop_name artist.name)) &&
  decide (5 ≤ artist.popularity) &&
  !(labelKeywords.any fun k => strContains (pyLower artist.name) k) &&
  !(claimSuspiciousArtistName (pyLower artist.name).toList)

/-- The same acceptance condition with the source's full suspicious-pattern
list ("ost" and "compilation" added): the amended form of the claim. -/
def claimGroupAcceptFull (artist : SpotifyArtist) : Bool :=
  let genres := artist.genres.map pyLower
  let has_kpop_genre := genres.any fun g => strContains g "k-pop" || strContains g "korean"
  decide (2 ≤ (pyStrip artist.name).length) &&
  (has_kpop_genre || (decide (30 < artist.popularity) && looks_like_kpop_name artist.name)) &&
  decide (5 ≤ artist.popularity) &&
  !(labelKeywords.any fun k => strContains (pyLower artist.name) k) &&
  !(suspiciousArtistName (pyLower artist.name).toList)

/-! ## Release validation and album documents, collector side
(`hybrid_kpop_collector.py`, lines 525-625) -/

/-- `HybridKpopCollector.is_primary_artist_album` (lines 525-534): the target
must be the first credited artist. -/
def is_primary_artist_album (album : SpotifyAlbum) (target_artist_id : String) : Bool :=
  match album.artists with
  | [] => false
  | primary :: _ => primary.id = target_artist_id

/-- `HybridKpopCollector.is_valid_release_simple` (lines 536-572).  The
`album_type` field is read by the source but never used. -/
def is_valid_release_simple (release : SpotifyAlbum) : Bool :=
  let total_tracks := release.total_tracks
  let name := release.name
  let album_group := release.album_group
  if total_tracks < 4 then false
  else if name = "" || (pyStrip name).length < 1 then false
  else if album_group = "compilation" || album_group = "appears_on" then false
  else
    let name_lower := (pyLower name).toList
    if matchFullTrim name_lower "(null)" || matchFullTrim name_lower "null" ||
       matchFullTrim name_lower "undefined" ||
       matchKaraokeVersion name_lower || containsSub name_lower "(karaoke)".toList ||
       matchSoundtrackPt name_lower || matchOriginalSoundtrackPt name_lower then false
    else true

namespace Collector

/-- The album document written by the collector, restricted to the fields the
claims are about; the parsed `datetime` is kept as the raw provider date
string and the cover-image choice is omitted. -/
structure AlbumDoc where
  name : String
  artistId : Nat
  artistName : String
  spotifyId : String
  releaseDate : String
  totalTracks : Nat
  albumType : String
deriving DecidableEq, Repr

/-- `HybridKpopCollector.create_album_document` (lines 574-625): the stored
release kind is derived from the track count alone. -/
def create_album_document (release : SpotifyAlbum) (groupId : Nat)
    (groupName : String) : AlbumDoc :=
  { name := pyStrip release.name
    artistId := groupId
    artistName := groupName
    spotifyId := release.id
    releaseDate := release.release_date
    totalTracks := release.total_tracks
    albumType :=
      if 8 ≤ release.total_tracks then "album"
      else if 4 ≤ release.total_tracks then "ep"
      else "single" }

/-- The per-page filter of `search_albums_by_artist_id` (lines 489-495): keep
a release when the target is its primary artist and it passes
`is_valid_release_simple`. -/
def search_albums_by_artist_id_filter (items : List SpotifyAlbum)
    (artist_id : String) : List SpotifyAlbum :=
  items.filter fun album =>
    is_primary_artist_album album artist_id && is_valid_release_simple album

/-- The documents persisted for one result page of the collector's
artist-id album path (`process_existing_group_albums` feeding
`save_or_update_album`). -/
def persistedAlbumDocs (items : List SpotifyAlbum) (artist_id : String)
    (groupId : Nat) (groupName : String) : List AlbumDoc :=
  (search_albums_by_artist_id_filter items artist_id).map
    fun release => create_album_document release groupId groupName

end Collector

/-! ## Merge & reconciliation engine (`kpop_spotify_cleaner.py`, lines 271-449) -/

/-- `KpopSpotifyCleaner.is_valid_spotify_release` (lines 785-819): minimal
criteria, any release with at least one track and a plausible name passes. -/
def is_valid_spotify_release (release : SpotifyAlbum) : Bool :=
  let total_tracks := release.total_tracks
  let name := release.name
  let album_type := release.album_type
  if total_tracks < 1 then false
  else if name = "" || (pyStrip name).length < 1 then false
  else if album_type = "compilation" && strContains (pyLower name) "various" then false
  else
    let name_lower := (pyLower name).toList
    if matchFullTrim name_lower "(null)" || matchFullTrim name_lower "null" ||
       matchFullTrim name_lower "undefined" || matchFullTrim name_lower "test" ||
       containsSub name_lower "various artists".toList ||
       containsSub name_lower "hits années".toList ||
       containsSub name_lower "best of".toList then false
    else true

/-- `KpopSpotifyCleaner.verify_album_belongs_to_artist` (lines 821-833): the
expected Spotify id must appear among the album's credited artists (any
position, not only the primary slot); the artist-name argument is unused in the
source. -/
def verify_album_belongs_to_artist (album : SpotifyAlbum)
    (expected_spotify_id : String) (expected_artist_name : String) : Bool :=
  album.artists.any fun artist => artist.id = expected_spotify_id

/-- The per-page filter of `get_search_albums` (lines 376-382). -/
def get_search_albums_filter (items : List SpotifyAlbum)
    (spotify_id : String) (artist_name : String) : List SpotifyAlbum :=
  items.filter fun album =>
    is_valid_spotify_release album &&
    verify_album_belongs_to_artist album spotify_id artist_name

/-- The per-page filter of `get_official_albums` (line 320). -/
def get_official_albums_filter (items : List SpotifyAlbum) : List SpotifyAlbum :=
  items.filter is_valid_spotify_release

/-- An album record inside `merge_albums`'s dedup dictionary: the raw album
plus the `discovery_method` tag. -/
structure TaggedAlbum where
  album : SpotifyAlbum
  discovery_method : String
deriving DecidableEq, Repr

/-- Python-dict insertion: replace the value in place when the key exists,
append otherwise. -/
def dictInsert (k : String) (v : TaggedAlbum) :
    List (String × TaggedAlbum) → List (String × TaggedAlbum)
  | [] => [(k, v)]
  | (k1, v1) :: rest => if k1 = k then (k, v) :: rest else (k1, v1) :: dictInsert k v rest

def hasKey (d : List (String × TaggedAlbum)) (k : String) : Bool :=
  d.any fun e => e.1 = k

/-- Step 1 of `merge_albums` (lines 414-421): officially-listed albums enter the
dictionary tagged `official` (skipped when the id is falsy). -/
def addOfficial (d : List (String × TaggedAlbum)) (album : SpotifyAlbum) :
    List (String × TaggedAlbum) :=
  if album.id = "" then d else dictInsert album.id ⟨album, "official"⟩ d

/-- Step 2 of `merge_albums` (lines 423-432): search-sourced albums are added
only when their id is truthy and not already a key. -/
def addSearch (d : List (String × TaggedAlbum)) (album : SpotifyAlbum) :
    List (String × TaggedAlbum) :=
  if album.id = "" then d
  else if hasKey d album.id then d
  else d ++ [(album.id, ⟨album, "search"⟩)]

def officialDict (official_albums : List SpotifyAlbum) : List (String × TaggedAlbum) :=
  official_albums.foldl addOfficial []

def mergeDict (official_albums search_albums : List SpotifyAlbum) :
    List (String × TaggedAlbum) :=
  search_albums.foldl addSearch (officialDict official_albums)

/-- The dictionary's value list, in insertion order (Python `dict.values()`),
before the final sort. -/
def premergeAlbums (official_albums search_albums : List SpotifyAlbum) :
    List TaggedAlbum :=
  (mergeDict official_albums search_albums).map Prod.snd

/-- The sort key of `merge_albums` step 3: the raw `release_date` string. -/
def dateKey (t : TaggedAlbum) : List Char := t.album.release_date.toList

/-- Descending comparison used by `final_albums.sort(key=…, reverse=True)`. -/
def geDate (x y : TaggedAlbum) : Bool := lexLe (dateKey y) (dateKey x)

/-- `KpopSpotifyCleaner.merge_albums` (lines 408-449): officials first, then
new-by-id search results, sorted by release date descending (stable). -/
def merge_albums (official_albums search_albums : List SpotifyAlbum) :
    List TaggedAlbum :=
  isortD geDate (premergeAlbums official_albums search_albums)

/-- Python `int(…)` on a short digit string (`int(release_date[:4])`): `none`
models the `ValueError` swallowed by the source's `try`. -/
def pyInt? (l : List Char) : Option Nat :=
  if l ≠ [] && l.all Char.isDigit then
    some (l.foldl (fun n c => n * 10 + (c.toNat - 48)) 0)
  else none

namespace Cleaner

/-- The album document written by the cleaner (`create_album_document`,
kpop_spotify_cleaner.py lines 835-873): the stored kind is the provider's
`album_type`, not derived from the track count. -/
structure AlbumDoc where
  name : String
  artistId : Nat
  artistName : String
  spotifyId : String
  releaseDate : String
  releaseYear : Option Nat
  albumType : String
  totalTracks : Nat
  discoveryMethod : String
deriving DecidableEq, Repr

def create_album_document (t : TaggedAlbum) (groupId : Nat)
    (groupName : String) : AlbumDoc :=
  { name := pyStrip t.album.name
    artistId := groupId
    artistName := groupName
    spotifyId := t.album.id
    releaseDate := t.album.release_date
    releaseYear :=
      if t.album.release_date = "" then none
      else pyInt? (t.album.release_date.data.take 4)
    albumType := t.album.album_type
    totalTracks := t.album.total_tracks
    discoveryMethod := t.discovery_method }

/-- The album documents inserted by `clean_albums_for_group` (lines 496-518):
one `insert_one` per merged album. -/
def persistedAlbumDocs (official_pages search_pages : List SpotifyAlbum)
    (spotify_id : String) (group_name : String) (groupId : Nat) : List AlbumDoc :=
  (merge_albums (get_official_albums_filter official_pages)
      (get_search_albums_filter search_pages spotify_id group_name)).map
    fun t => create_album_document t groupId group_name

end Cleaner

/-! ## Idempotent upserts (`hybrid_kpop_collector.py`, lines 627-682)

The MongoDB collections are lists of `(ObjectId, document)` pairs; `find_one`
is `List.find?`, `replace_one` by id replaces the found record in place,
`insert_one` appends. -/

def replaceFirst {α : Type} (m : α → Bool) (f : α → α) : List α → List α
  | [] => []
  | x :: xs => if m x then f x :: xs else x :: replaceFirst m f xs

/-- `find_one` + (`replace_one` or `insert_one`), the shape shared by
`save_or_update_group` and `save_or_update_album`. -/
def mongoUpsert {α : Type} (m : α → Bool) (upd : α → α) (ins : α)
    (store : List α) : List α :=
  match store.find? m with
  | some _ => replaceFirst m upd store
  | none => store ++ [ins]

/-- A group document as consumed by `save_or_update_group`.  Its producer
`create_group_document` is called (line 352) but absent from the source; the
upsert only reads `name` and `spotifyId` and rewrites the two timestamps, so
the remaining fields are folded into `payload`. -/
structure GroupDoc where
  name : String
  spotifyId : Option String
  payload : String
  createdAt : Nat
  updatedAt : Nat
deriving DecidableEq, Repr

/-- The `$or` filter of `save_or_update_group` (lines 630-635): equal
`spotifyId`, or case-insensitively equal `name` (the regex is the escaped name
anchored on both sides with the `i` option). -/
def groupMatchQuery (document : GroupDoc) (r : Nat × GroupDoc) : Bool :=
  decide (r.2.spotifyId = document.spotifyId) ||
  decide (pyLower r.2.name = pyLower document.name)

/-- `HybridKpopCollector.save_or_update_group` (lines 627-653): on a match the
document keeps the existing `createdAt` and the existing `_id` and replaces the
record; otherwise it is inserted. -/
def save_or_update_group (store : List (Nat × GroupDoc)) (document : GroupDoc)
    (now : Nat) (newId : Nat) : List (Nat × GroupDoc) :=
  mongoUpsert (groupMatchQuery document)
    (fun existing =>
      (existing.1, { document with createdAt := existing.2.createdAt, updatedAt := now }))
    (newId, document) store

/-- An album document as consumed by `save_or_update_album` (shape written by
`Collector.create_album_document`, plus the two timestamps it sets). -/
structure AlbumUpsertDoc where
  name : String
  artistName : String
  spotifyId : String
  payload : String
  createdAt : Nat
  updatedAt : Nat
deriving DecidableEq, Repr

/-- The `$or` filter of `save_or_update_album` (lines 658-666): equal
`spotifyId`, or same `artistName` with case-insensitively equal `name`. -/
def albumMatchQuery (document : AlbumUpsertDoc) (r : Nat × AlbumUpsertDoc) : Bool :=
  decide (r.2.spotifyId = document.spotifyId) ||
  (decide (r.2.artistName = document.artistName) &&
   decide (pyLower r.2.name = pyLower document.name))

/-- `HybridKpopCollector.save_or_update_album` (lines 655-682). -/
def save_or_update_album (store : List (Nat × AlbumUpsertDoc))
    (document : AlbumUpsertDoc) (now : Nat) (newId : Nat) :
    List (Nat × AlbumUpsertDoc) :=
  mongoUpsert (albumMatchQuery document)
    (fun existing =>
      (existing.1, { document with createdAt := existing.2.createdAt, updatedAt := now }))
    (newId, document) store

/-! ## Rate-limit handling and quarantine (`kpop_spotify_cleaner.py`) -/

/-- One provider response to a single-artist lookup. -/
inductive SpotifyResp where
  | ok (artistName : String) (genres : List String)
  | rateLimited (retryAfter : Nat)
  | notFound
  | httpError (code : Nat)
deriving DecidableEq, Repr

def cleanerKpopGenres : List String :=
  ["k-pop", "korean pop", "korean", "korean hip hop", "korean r&b"]

/-- `any(kpop_genre in genre for genre in genres for kpop_genre in kpop_genres)`
over the lowercased genres (lines 91-95). -/
def hasKpopGenreCleaner (genres : List String) : Bool :=
  (genres.map pyLower).any fun genre =>
    cleanerKpopGenres.any fun kpop_genre => strContains genre kpop_genre

/-- Retry loop of `validate_kpop_artist_by_id` (lines 202-269): every retried
iteration (small rate-limit wait, other HTTP error) consumes one unit of the
3-attempt budget; a 429 whose `Retry-After` exceeds the 600-second ceiling
returns `False` immediately, as do 404 and budget exhaustion. -/
def validateGo : List SpotifyResp → Nat → Bool
  | _, 0 => false
  | [], _ => false
  | resp :: rest, fuel + 1 =>
      match resp with
      | .ok _ genres => hasKpopGenreCleaner genres
      | .rateLimited wait_time => if 600 < wait_time then false else validateGo rest fuel
      | .notFound => false
      | .httpError _ => validateGo rest fuel

/-- `KpopSpotifyCleaner.validate_kpop_artist_by_id` on its sequence of provider
responses (`max_retries = 3`). -/
def validate_kpop_artist_by_id (responses : List SpotifyResp) : Bool :=
  validateGo responses 3

/-- The quarantine-relevant flags of a stored group record. -/
structure GroupFlags where
  isActive : Bool
  rateLimited : Bool
  retryAfter : Option Nat
  invalidReason : Option String
deriving DecidableEq, Repr

/-- `KpopSpotifyCleaner.mark_group_as_invalid` (lines 522-555): reasons that
mention rate limiting quarantine the group for 24 hours (86400 seconds); all
other reasons deactivate it permanently. -/
def mark_group_as_invalid (g : GroupFlags) (reason : String) (now : Nat) : GroupFlags :=
  if strContains reason "429" || strContains (pyLower reason) "rate" ||
     strContains reason "Rate limiting" then
    { g with isActive := true, rateLimited := true, retryAfter := some (now + 86400) }
  else
    { g with isActive := false, invalidReason := some reason }

/-- The validation step of `clean_albums_for_group` (lines 467-486): a failed
`validate_kpop_artist_by_id` always passes the fixed reason string
`"Pas K-pop ou artiste inexistant"`; a successful validation re-confirms
`isActive`. -/
def clean_albums_for_group_validate (g : GroupFlags)
    (responses : List SpotifyResp) (now : Nat) : GroupFlags :=
  if validate_kpop_artist_by_id responses then { g with isActive := true }
  else mark_group_as_invalid g "Pas K-pop ou artiste inexistant" now

/-! ## Revalidation / cleanup run (`hybrid_kpop_collector.py`, lines 804-896) -/

inductive CleanupDecision where
  | keep
  | deleteNotKpop
  | deleteNameMismatch
deriving DecidableEq, Repr

/-- The per-group decision of `cleanup_invalid_spotify_artists` on a 200
response (lines 842-864): delete when not K-pop, delete when the name
similarity is below 0.6, keep otherwise. -/
def cleanup_artist_decision (group_name artist_name : String)
    (genres : List String) : CleanupDecision :=
  let is_kpop := genres.any fun genre =>
    cleanerKpopGenres.any fun kpop_genre => strContains (pyLower genre) kpop_genre
  if !is_kpop then .deleteNotKpop
  else if calculate_name_similarity group_name artist_name < 3 / 5 then .deleteNameMismatch
  else .keep

structure CleanupCounters where
  invalid_count : Nat
  rate_limited_count : Nat
  checked_count : Nat
deriving DecidableEq, Repr

/-- The counter updates of one loop iteration of
`cleanup_invalid_spotify_artists` (lines 821-892). -/
def cleanup_step (c : CleanupCounters) (group_name : String)
    (resp : SpotifyResp) : CleanupCounters :=
  match resp with
  | .ok artist_name genres =>
      match cleanup_artist_decision group_name artist_name genres with
      | .keep => { c with checked_count := c.checked_count + 1 }
      | _ => { c with invalid_count := c.invalid_count + 1 }
  | .notFound => { c with invalid_count := c.invalid_count + 1 }
  | .rateLimited _ => { c with rate_limited_count := c.rate_limited_count + 1 }
  | .httpError _ => c

def cleanup_counters (groups : List (String × SpotifyResp)) : CleanupCounters :=
  groups.foldl (fun c g => cleanup_step c g.1 g.2) ⟨0, 0, 0⟩

/-- The statistics dictionary shape `{'checked': …, 'deleted': …,
'rate_limited': …}` that `run_cleanup_only` and `main` expect. -/
structure CleanupStats where
  checked : Nat
  deleted : Nat
  rate_limited : Nat
deriving DecidableEq, Repr

/-- `HybridKpopCollector.cleanup_invalid_spotify_artists` (lines 804-896): the
`try` body computes `checked_count` / `invalid_count` / `rate_limited_count`
but contains no `return`, so a normally completing run returns Python `None`;
only the `except` handler returns a stats dictionary (all zeros). -/
def cleanup_invalid_spotify_artists (groups : List (String × SpotifyResp)) :
    Option CleanupStats :=
  match cleanup_counters groups with
  | _ => none

/-! ## Discovery phase (`hybrid_kpop_collector.py`, lines 172-333) -/

/-- One artist of one result page inside `search_kpop_artists_discovery`
(lines 208-214): kept when the classifier accepts it and neither its Spotify id
(against the growing `processed_spotify_ids`) nor its normalized name (against
the run-start `existing_group_names` cache) is known; kept artists immediately
extend `processed_spotify_ids`. -/
def pageStep (existing_group_names : List String)
    (st : List SpotifyArtist × List String) (artist : SpotifyArtist) :
    List SpotifyArtist × List String :=
  if is_valid_kpop_spotify_artist artist &&
     !(decide (artist.id ∈ st.2)) &&
     !(decide (pyStrip (pyLower artist.name) ∈ existing_group_names)) then
    (st.1 ++ [artist], st.2 ++ [artist.id])
  else st

/-- The pagination loop of `search_kpop_artists_discovery` (lines 184-226):
pages of up to 50 items, at most 20 pages (`offset < 1000`), stopping early on
an empty or short page (an HTTP error also just breaks the loop, i.e. truncates
the page list). -/
def searchDiscoveryGo (existing_group_names : List String) :
    List (List SpotifyArtist) → Nat → (List SpotifyArtist × List String) →
    List SpotifyArtist × List String
  | _, 0, st => st
  | [], _, st => st
  | page :: rest, fuel + 1, st =>
      if page = [] then st
      else
        let st1 := page.foldl (pageStep existing_group_names) st
        if page.length < 50 then st1
        else searchDiscoveryGo existing_group_names rest fuel st1

/-- `HybridKpopCollector.search_kpop_artists_discovery` for one query, given
its provider result pages; returns the accepted artists and the extended
`processed_spotify_ids`. -/
def search_kpop_artists_discovery (pages : List (List SpotifyArtist))
    (processed_spotify_ids existing_group_names : List String) :
    List SpotifyArtist × List String :=
  searchDiscoveryGo existing_group_names pages 20 ([], processed_spotify_ids)

/-- The final dictionary-based dedup of `discover_new_kpop_artists`
(lines 322-328): first occurrence of each Spotify id wins. -/
def dedupById (l : List SpotifyArtist) : List (String × SpotifyArtist) :=
  l.foldl (fun d artist =>
    if d.any (fun e => e.1 = artist.id) then d else d ++ [(artist.id, artist)]) []

/-- Descending-popularity comparison of `final_list.sort(key=…, reverse=True)`
(line 330). -/
def gePop (x y : SpotifyArtist) : Bool := decide (y.popularity ≤ x.popularity)

/-- `HybridKpopCollector.discover_new_kpop_artists` (lines 300-333): the four
search queries run in sequence sharing `processed_spotify_ids`; the union is
deduplicated by id and sorted by popularity, most popular first. -/
def discover_new_kpop_artists
    (query_responses : List (List (List SpotifyArtist)))
    (processed_spotify_ids existing_group_names : List String) :
    List SpotifyArtist :=
  let all := query_responses.foldl (fun st pages =>
      let r := search_kpop_artists_discovery pages st.2 existing_group_names
      (st.1 ++ r.1, r.2)) (([] : List SpotifyArtist), processed_spotify_ids)
  isortD gePop ((dedupById all.1).map Prod.snd)

/-! ## Lemmas about the merge dictionary -/

theorem mem_dictInsert {k : String} {v : TaggedAlbum}
    {d : List (String × TaggedAlbum)} {e : String × TaggedAlbum}
    (h : e ∈ dictInsert k v d) : e = (k, v) ∨ e ∈ d := by
  induction d with
  | nil => simpa [dictInsert] using h
  | cons p rest ih =>
    obtain ⟨k1, v1⟩ := p
    by_cases hk : k1 = k
    · simp only [dictInsert, hk, if_true] at h
      rcases List.mem_cons.mp h with rfl | h2
      · exact Or.inl rfl
      · exact Or.inr (List.mem_cons_of_mem _ h2)
    · simp only [dictInsert, hk, if_false] at h
      rcases List.mem_cons.mp h with rfl | h2
      · exact Or.inr (List.mem_cons_self _ _)
      · rcases ih h2 with h3 | h3
        · exact Or.inl h3
        · exact Or.inr (List.mem_cons_of_mem _ h3)

theorem keys_dictInsert (k : String) (v : TaggedAlbum)
    (d : List (String × TaggedAlbum)) (k1 : String) :
    k1 ∈ (dictInsert k v d).map Prod.fst ↔ k1 = k ∨ k1 ∈ d.map Prod.fst := by
  induction d with
  | nil => simp [dictInsert]
  | cons p rest ih =>
    by_cases hk : p.1 = k
    · rcases p with ⟨k2, v2⟩
      simp only at hk
      simp [dictInsert, hk]
    · rcases p with ⟨k2, v2⟩
      simp only at hk
      simp only [dictInsert, hk, if_false, List.map_cons, List.mem_cons, ih]
      tauto

theorem keysNodup_dictInsert (k : String) (v : TaggedAlbum)
    (d : List (String × TaggedAlbum)) (h : (d.map Prod.fst).Nodup) :
    ((dictInsert k v d).map Prod.fst).Nodup := by
  induction d with
  | nil => simp [dictInsert]
  | cons p rest ih =>
    rcases p with ⟨k2, v2⟩
    simp only [List.map_cons, List.nodup_cons] at h
    by_cases hk : k2 = k
    · simp only [dictInsert, hk, if_true, List.map_cons, List.nodup_cons]
      exact ⟨hk ▸ h.1, h.2⟩
    · simp only [dictInsert, hk, if_false, List.map_cons, List.nodup_cons]
      refine ⟨?_, ih h.2⟩
      intro hmem
      rcases (keys_dictInsert k v rest k2).mp hmem with rfl | h2
      · exact hk rfl
      · exact h.1 h2

theorem hasKey_iff (d : List (String × TaggedAlbum)) (k : String) :
    hasKey d k = true ↔ k ∈ d.map Prod.fst := by
  simp only [hasKey, List.any_eq_true, List.mem_map, decide_eq_true_eq]

/-- Well-formedness of the phase-1 dictionary: every entry is keyed by its
album's (nonempty) id and tagged `official`. -/
theorem officialDict_wf (A : List SpotifyAlbum) :
    ∀ e ∈ officialDict A,
      e.2.album.id = e.1 ∧ e.1 ≠ "" ∧ e.2.discovery_method = "official" := by
  have main : ∀ (l : List SpotifyAlbum) (d : List (String × TaggedAlbum)),
      (∀ e ∈ d, e.2.album.id = e.1 ∧ e.1 ≠ "" ∧ e.2.discovery_method = "official") →
      ∀ e ∈ l.foldl addOfficial d,
        e.2.album.id = e.1 ∧ e.1 ≠ "" ∧ e.2.discovery_method = "official" := by
    intro l
    induction l with
    | nil => intro d hd; simpa using hd
    | cons a rest ih =>
      intro d hd e
      simp only [List.foldl_cons]
      apply ih
      intro e1 he1
      by_cases ha : a.id = ""
      · exact hd e1 (by simpa [addOfficial, ha] using he1)
      · simp only [addOfficial, ha, if_false] at he1
        rcases mem_dictInsert he1 with rfl | h2
        · exact ⟨rfl, ha, rfl⟩
        · exact hd e1 h2
  exact main A [] (by simp)

theorem officialDict_keysNodup (A : List SpotifyAlbum) :
    ((officialDict A).map Prod.fst).Nodup := by
  have main : ∀ (l : List SpotifyAlbum) (d : List (String × TaggedAlbum)),
      (d.map Prod.fst).Nodup → ((l.foldl addOfficial d).map Prod.fst).Nodup := by
    intro l
    induction l with
    | nil => intro d hd; simpa using hd
    | cons a rest ih =>
      intro d hd
      simp only [List.foldl_cons]
      apply ih
      by_cases ha : a.id = ""
      · simpa [addOfficial, ha] using hd
      · simp only [addOfficial, ha, if_false]
        exact keysNodup_dictInsert _ _ _ hd
  exact main A [] (by simp)

theorem hasKey_addOfficial (d : List (String × TaggedAlbum)) (a : SpotifyAlbum)
    (k : String) (h : hasKey d k = true) : hasKey (addOfficial d a) k = true := by
  by_cases ha : a.id = ""
  · simpa [addOfficial, ha]
  · simp only [addOfficial, ha, if_false]
    rw [hasKey_iff] at h ⊢
    exact (keys_dictInsert _ _ _ _).mpr (Or.inr h)

theorem hasKey_addSearch (d : List (String × TaggedAlbum)) (a : SpotifyAlbum)
    (k : String) (h : hasKey d k = true) : hasKey (addSearch d a) k = true := by
  by_cases ha : a.id = ""
  · simpa [addSearch, ha]
  · by_cases hk : hasKey d a.id = true
    · simpa [addSearch, ha, hk]
    · simp only [addSearch, ha, if_false, hk, Bool.false_eq_true]
      rw [hasKey_iff] at h ⊢
      simpa using Or.inl h

/-- Every official album with a truthy id owns a key of the phase-1
dictionary. -/
theorem officialDict_hasKey (A : List SpotifyAlbum) :
    ∀ a ∈ A, a.id ≠ "" → hasKey (officialDict A) a.id = true := by
  have main : ∀ (l : List SpotifyAlbum) (d : List (String × TaggedAlbum)),
      ∀ a ∈ l, a.id ≠ "" → hasKey (l.foldl addOfficial d) a.id = true := by
    intro l
    induction l with
    | nil => intro d a ha; simp at ha
    | cons b rest ih =>
      intro d a ha hne
      simp only [List.foldl_cons]
      rcases List.mem_cons.mp ha with rfl | h2
      · have hb : hasKey (addOfficial d a) a.id = true := by
          simp only [addOfficial, hne, if_false]
          rw [hasKey_iff]
          exact (keys_dictInsert _ _ _ _).mpr (Or.inl rfl)
        have mono : ∀ (l2 : List SpotifyAlbum) (d2 : List (String × TaggedAlbum)) (k : String),
            hasKey d2 k = true → hasKey (l2.foldl addOfficial d2) k = true := by
          intro l2
          induction l2 with
          | nil => intro d2 k h; simpa using h
          | cons c cs ihc =>
            intro d2 k h
            simp only [List.foldl_cons]
            exact ihc _ _ (hasKey_addOfficial d2 c k h)
        exact mono rest _ a.id hb
      · exact ih (addOfficial d b) a h2 hne
  exact main A []

/-- Phase 2 only appends: the merged dictionary is the phase-1 dictionary
followed by fresh-keyed `search`-tagged entries drawn from the search list. -/
theorem addSearch_foldl_decomp (S : List SpotifyAlbum) :
    ∀ d : List (String × TaggedAlbum),
      ∃ ext, S.foldl addSearch d = d ++ ext ∧
        ∀ e ∈ ext, hasKey d e.1 = false ∧ e.2.discovery_method = "search" ∧
          e.2.album.id = e.1 ∧ e.1 ≠ "" ∧ e.2.album ∈ S := by
  induction S with
  | nil => intro d; exact ⟨[], by simp, by simp⟩
  | cons a rest ih =>
    intro d
    by_cases ha : a.id = ""
    · rcases ih d with ⟨ext, heq, hprop⟩
      refine ⟨ext, by simpa [addSearch, ha] using heq, ?_⟩
      intro e he
      rcases hprop e he with ⟨h1, h2, h3, h4, h5⟩
      exact ⟨h1, h2, h3, h4, List.mem_cons_of_mem _ h5⟩
    · by_cases hk : hasKey d a.id = true
      · rcases ih d with ⟨ext, heq, hprop⟩
        refine ⟨ext, by simpa [addSearch, ha, hk] using heq, ?_⟩
        intro e he
        rcases hprop e he with ⟨h1, h2, h3, h4, h5⟩
        exact ⟨h1, h2, h3, h4, List.mem_cons_of_mem _ h5⟩
      · rcases ih (d ++ [(a.id, ⟨a, "search"⟩)]) with ⟨ext, heq, hprop⟩
        refine ⟨(a.id, ⟨a, "search"⟩) :: ext, ?_, ?_⟩
        · simp only [List.foldl_cons, addSearch, ha, if_false, hk, Bool.false_eq_true]
          simpa using heq
        · intro e he
          rcases List.mem_cons.mp he with rfl | h2
          · exact ⟨by simpa using hk, rfl, rfl, ha, List.mem_cons_self _ _⟩
          · rcases hprop e h2 with ⟨h1, h3, h4, h5, h6⟩
            have : hasKey d e.1 = false := by
              simp only [hasKey, List.any_append, Bool.or_eq_false_iff] at h1
              exact h1.1
            exact ⟨this, h3, h4, h5, List.mem_cons_of_mem _ h6⟩

theorem mergeDict_keysNodup (A S : List SpotifyAlbum) :
    ((mergeDict A S).map Prod.fst).Nodup := by
  have main : ∀ (l : List SpotifyAlbum) (d : List (String × TaggedAlbum)),
      (d.map Prod.fst).Nodup → ((l.foldl addSearch d).map Prod.fst).Nodup := by
    intro l
    induction l with
    | nil => intro d hd; simpa using hd
    | cons a rest ih =>
      intro d hd
      simp only [List.foldl_cons]
      apply ih
      by_cases ha : a.id = ""
      · simpa [addSearch, ha] using hd
      · by_cases hk : hasKey d a.id = true
        · simpa [addSearch, ha, hk] using hd
        · simp only [addSearch, ha, if_false, hk, Bool.false_eq_true]
          simp only [List.map_append, List.map_cons, List.map_nil]
          rw [List.nodup_append]
          refine ⟨hd, by simp, ?_⟩
          intro x hx hx2
          simp only [List.mem_singleton] at hx2
          subst hx2
          exact absurd ((hasKey_iff d a.id).mpr hx) (by simpa using hk)
  exact main S (officialDict A) (officialDict_keysNodup A)

/-- Well-formedness of every merged-dictionary entry. -/
theorem mergeDict_wf (A S : List SpotifyAlbum) :
    ∀ e ∈ mergeDict A S, e.2.album.id = e.1 ∧ e.1 ≠ "" := by
  intro e he
  rcases addSearch_foldl_decomp S (officialDict A) with ⟨ext, heq, hprop⟩
  rw [mergeDict, heq] at he
  rcases List.mem_append.mp he with h | h
  · rcases officialDict_wf A e h with ⟨h1, h2, _⟩
    exact ⟨h1, h2⟩
  · rcases hprop e h with ⟨_, _, h3, h4, _⟩
    exact ⟨h3, h4⟩

theorem filter_map_snd (d : List (String × TaggedAlbum)) (P : TaggedAlbum → Bool) :
    (d.map Prod.snd).filter P = (d.filter fun e => P e.2).map Prod.snd := by
  induction d with
  | nil => simp
  | cons e rest ih =>
    by_cases hP : P e.2 = true
    · simp [List.filter_cons, hP, ih]
    · simp [List.filter_cons, hP, ih]

theorem countKey_le_one (d : List (String × TaggedAlbum)) (X : String)
    (h : (d.map Prod.fst).Nodup) :
    (d.filter fun e => decide (e.1 = X)).length ≤ 1 := by
  induction d with
  | nil => simp
  | cons e rest ih =>
    simp only [List.map_cons, List.nodup_cons] at h
    by_cases hX : e.1 = X
    · have : rest.filter (fun e => decide (e.1 = X)) = [] := by
        apply List.filter_eq_nil.mpr
        intro x hx
        simp only [decide_eq_true_eq]
        intro hcon
        exact h.1 (hX ▸ hcon ▸ List.mem_map_of_mem Prod.fst hx)
      simp [List.filter_cons, hX, this]
    · simpa [List.filter_cons, hX] using ih h.2

theorem countKey_pos (d : List (String × TaggedAlbum)) (X : String)
    (h : hasKey d X = true) :
    1 ≤ (d.filter fun e => decide (e.1 = X)).length := by
  rcases List.mem_map.mp ((hasKey_iff d X).mp h) with ⟨e, he, hX⟩
  have : e ∈ d.filter fun e => decide (e.1 = X) :=
    List.mem_filter.mpr ⟨he, by simpa using hX⟩
  exact List.length_pos.mpr (List.ne_nil_of_mem this)

theorem hasKey_addSearch_foldl (S : List SpotifyAlbum) :
    ∀ (d : List (String × TaggedAlbum)) (k : String),
      hasKey d k = true → hasKey (S.foldl addSearch d) k = true := by
  induction S with
  | nil => intro d k h; simpa using h
  | cons a rest ih =>
    intro d k h
    simp only [List.foldl_cons]
    exact ih _ _ (hasKey_addSearch d a k h)

theorem mergeDict_countKey (A S : List SpotifyAlbum) (X : String)
    (h : hasKey (officialDict A) X = true) :
    ((mergeDict A S).filter fun e => decide (e.1 = X)).length = 1 :=
  Nat.le_antisymm (countKey_le_one _ X (mergeDict_keysNodup A S))
    (countKey_pos _ X (hasKey_addSearch_foldl S (officialDict A) X h))

/-- C3 counterexample input: an authoritative album whose provider object
carries an empty (falsy) id. -/
def idlessAlbum : SpotifyAlbum :=
  { id := ""
    name := "Intro"
    release_date := "2020"
    total_tracks := 5
    album_type := "album"
    album_group := "album"
    artists := [] }

/-- C3 (counterexample): the claim says every item of the authoritative set is
kept in the merged result, but an authoritative album with a falsy external id
is dropped by `merge_albums` — the merged result of `A = [idlessAlbum]`,
`S = []` is empty. -/
theorem merge_drops_idless_authoritative :
    merge_albums [idlessAlbum] [] = [] := by decide

/-- C3 (amended): for a nonempty external id `X` occurring in the authoritative
set, the merged result holds exactly one record with id `X` and every such
record is tagged `official`; authoritative items lacking a truthy id are
dropped. -/
theorem merge_dedup_authoritative (A S : List SpotifyAlbum) (X : String)
    (hX : X ≠ "") (hmem : X ∈ A.map SpotifyAlbum.id) :
    ((merge_albums A S).filter fun t => decide (t.album.id = X)).length = 1 ∧
    ∀ t ∈ merge_albums A S, t.album.id = X → t.discovery_method = "official" := by
  have hkey : hasKey (officialDict A) X = true := by
    rcases List.mem_map.mp hmem with ⟨a, ha, haX⟩
    exact haX ▸ officialDict_hasKey A a ha (by rw [haX]; exact hX)
  constructor
  · have hperm : (merge_albums A S).Perm (premergeAlbums A S) :=
      perm_isortD geDate (premergeAlbums A S)
    rw [(hperm.filter _).length_eq]
    rw [premergeAlbums, filter_map_snd, List.length_map]
    have hcongr : (mergeDict A S).filter (fun e => decide (e.2.album.id = X)) =
        (mergeDict A S).filter (fun e => decide (e.1 = X)) := by
      apply List.filter_congr
      intro e he
      rw [(mergeDict_wf A S e he).1]
    rw [hcongr]
    exact mergeDict_countKey A S X hkey
  · intro t ht hid
    have hpre : t ∈ premergeAlbums A S :=
      ((perm_isortD geDate (premergeAlbums A S)).mem_iff).mp ht
    rcases List.mem_map.mp hpre with ⟨e, he, hsnd⟩
    rcases addSearch_foldl_decomp S (officialDict A) with ⟨ext, heq, hprop⟩
    rw [mergeDict] at he
    rw [heq] at he
    rcases List.mem_append.mp he with hin | hin
    · exact hsnd ▸ (officialDict_wf A e hin).2.2
    · exfalso
      rcases hprop e hin with ⟨hfresh, _, hwf, _, _⟩
      have : e.1 = X := by rw [← hwf, hsnd, hid]
      rw [this] at hfresh
      rw [hkey] at hfresh
      exact Bool.true_eq_false.mp hfresh

/-- C4 (counterexample input): a search release whose primary credited artist
differs from the target, while the target appears in a later artist slot. -/
def secondarySlotAlbum : SpotifyAlbum :=
  { id := "balbum0000000000000000"
    name := "Mixed Single"
    release_date := "2022-03-01"
    total_tracks := 5
    album_type := "album"
    album_group := "album"
    artists := [⟨"otherartist0000000000x", "Other"⟩, ⟨"targetartist000000000x", "TWICE"⟩] }

/-- C4 (counterexample): the claim says a search-sourced release whose primary
credited artist differs from the target Group is excluded, but the ownership
check accepts any credited-artist slot: with an empty authoritative set this
release passes the search filter and appears in the merged result even though
its primary artist id is not the target id. -/
theorem search_primary_mismatch_not_excluded :
    (secondarySlotAlbum.artists.head?.map AlbumArtist.id ≠
        some "targetartist000000000x") ∧
    ((merge_albums []
        (get_search_albums_filter [secondarySlotAlbum] "targetartist000000000x" "TWICE")).filter
      fun t => decide (t.album.id = "balbum0000000000000000")).length = 1 := by
  constructor
  · decide
  · decide

/-- C4 (amended): a search-sourced release enters the merged result only when
its external id is absent from the authoritative set (among truthy ids), some
credited artist slot carries the target Group's external id
(`verify_album_belongs_to_artist`), and the release passes
`is_valid_spotify_release`; a release with no credited-artist slot equal to the
target id is excluded. -/
theorem search_ownership (A raw : List SpotifyAlbum) (sid aname : String)
    (t : TaggedAlbum)
    (ht : t ∈ merge_albums A (get_search_albums_filter raw sid aname))
    (htag : t.discovery_method = "search") :
    (∀ a ∈ A, a.id ≠ "" → a.id ≠ t.album.id) ∧
    verify_album_belongs_to_artist t.album sid aname = true ∧
    is_valid_spotify_release t.album = true := by
  have hpre : t ∈ premergeAlbums A (get_search_albums_filter raw sid aname) :=
    ((perm_isortD geDate _).mem_iff).mp ht
  rcases List.mem_map.mp hpre with ⟨e, he, hsnd⟩
  rcases addSearch_foldl_decomp (get_search_albums_filter raw sid aname)
      (officialDict A) with ⟨ext, heq, hprop⟩
  rw [mergeDict] at he
  rw [heq] at he
  rcases List.mem_append.mp he with hin | hin
  · exfalso
    have : t.discovery_method = "official" := hsnd ▸ (officialDict_wf A e hin).2.2
    rw [htag] at this
    exact absurd this (by decide)
  · rcases hprop e hin with ⟨hfresh, _, hwf, _, hSmem⟩
    have hfilter := List.mem_filter.mp hSmem
    have hconds := hfilter.2
    simp only [Bool.and_eq_true] at hconds
    refine ⟨?_, hsnd ▸ hconds.2, hsnd ▸ hconds.1⟩
    intro a ha hane heqid
    have : hasKey (officialDict A) a.id = true := officialDict_hasKey A a ha hane
    have hkey : e.1 = a.id := by rw [← hwf, hsnd, ← heqid]
    rw [← hkey] at this
    rw [this] at hfresh
    exact Bool.true_eq_false.mp hfresh

/-- C8: the merged sequence is sorted by the raw release-date string in
descending lexicographic order (on the provider's ISO-8601 `YYYY[-MM[-DD]]`
formats this is most-recent-first at the available precision); records with an
empty (missing) date key always sort after dated ones; ties keep the
pre-sort insertion order (the sort is stable on the date key); and the
pre-sort order lists all `official`-tagged records before all `search`-tagged
ones. -/
theorem merge_sorted_stable (A S : List SpotifyAlbum) :
    ((merge_albums A S).Pairwise fun x y => geDate x y = true) ∧
    ((merge_albums A S).Pairwise fun x y => dateKey x = [] → dateKey y = []) ∧
    (∀ v : List Char,
      (merge_albums A S).filter (fun t => decide (dateKey t = v)) =
        (premergeAlbums A S).filter (fun t => decide (dateKey t = v))) ∧
    ∃ os ss, premergeAlbums A S = os ++ ss ∧
      (∀ t ∈ os, t.discovery_method = "official") ∧
      (∀ t ∈ ss, t.discovery_method = "search") := by
  have htotal : ∀ a b : TaggedAlbum, geDate a b = true ∨ geDate b a = true :=
    fun a b => (lexLe_total (dateKey b) (dateKey a)).elim Or.inl Or.inr
  have htrans : ∀ a b c : TaggedAlbum,
      geDate a b = true → geDate b c = true → geDate a c = true :=
    fun a b c hab hbc => lexLe_trans hbc hab
  have hsorted := pairwise_isortD geDate htotal htrans (premergeAlbums A S)
  refine ⟨hsorted, ?_, ?_, ?_⟩
  · apply hsorted.imp
    intro a b hab ha
    rw [geDate, ha] at hab
    exact lexLe_nil_right hab
  · intro v
    apply filter_isortD
    intro a b hPa hPb
    rw [geDate, decide_eq_true_eq.mp hPa, decide_eq_true_eq.mp hPb]
    exact lexLe_refl v
  · rcases addSearch_foldl_decomp S (officialDict A) with ⟨ext, heq, hprop⟩
    refine ⟨(officialDict A).map Prod.snd, ext.map Prod.snd, ?_, ?_, ?_⟩
    · rw [premergeAlbums, mergeDict, heq, List.map_append]
    · intro t htmem
      rcases List.mem_map.mp htmem with ⟨e, he, hsnd⟩
      exact hsnd ▸ (officialDict_wf A e he).2.2
    · intro t htmem
      rcases List.mem_map.mp htmem with ⟨e, he, hsnd⟩
      exact hsnd ▸ (hprop e he).2.1

/-! ## Upsert lemmas -/

theorem find?_replaceFirst {α : Type} (m : α → Bool) (f : α → α)
    (hf : ∀ x, m (f x) = true) (l : List α) :
    (replaceFirst m f l).find? m = (l.find? m).map f := by
  induction l with
  | nil => simp [replaceFirst]
  | cons x xs ih =>
    by_cases hm : m x = true
    · simp [replaceFirst, hm, List.find?_cons_of_pos, hf]
    · simp only [replaceFirst, hm, if_false, Bool.false_eq_true]
      rw [List.find?_cons_of_neg _ (by simp [hm]), List.find?_cons_of_neg _ (by simp [hm]), ih]

theorem filter_replaceFirst_length {α : Type} (m : α → Bool) (f : α → α)
    (hf : ∀ x, m (f x) = true) (l : List α) :
    ((replaceFirst m f l).filter m).length = (l.filter m).length := by
  induction l with
  | nil => simp [replaceFirst]
  | cons x xs ih =>
    by_cases hm : m x = true
    · simp [replaceFirst, hm, List.filter_cons, hf]
    · simp [replaceFirst, hm, List.filter_cons, ih]

theorem find?_append_right {α : Type} (m : α → Bool) (l1 l2 : List α)
    (h : l1.find? m = none) : (l1 ++ l2).find? m = l2.find? m := by
  induction l1 with
  | nil => simp
  | cons x xs ih =>
    rw [List.find?_cons] at h
    cases hm : m x with
    | true => simp [hm] at h
    | false =>
      simp only [hm] at h
      simpa [List.find?_cons, hm] using ih h

/-- After `mongoUpsert`, the first matching record is the updated old record
when one matched, or the inserted document otherwise. -/
theorem mongoUpsert_find {α : Type} (m : α → Bool) (upd : α → α) (ins : α)
    (store : List α) (hupd : ∀ x, m (upd x) = true) (hins : m ins = true) :
    (mongoUpsert m upd ins store).find? m =
      some (match store.find? m with
            | some x => upd x
            | none => ins) := by
  cases hfind : store.find? m with
  | some x =>
    simp only [mongoUpsert, hfind]
    rw [find?_replaceFirst m upd hupd store, hfind]
    rfl
  | none =>
    simp only [mongoUpsert, hfind]
    rw [find?_append_right m store [ins] hfind]
    simp [List.find?_cons, hins]

/-- After `mongoUpsert`, exactly one record matches (provided at most one did
before). -/
theorem mongoUpsert_count {α : Type} (m : α → Bool) (upd : α → α) (ins : α)
    (store : List α) (hupd : ∀ x, m (upd x) = true) (hins : m ins = true)
    (hcount : (store.filter m).length ≤ 1) :
    ((mongoUpsert m upd ins store).filter m).length = 1 := by
  cases hfind : store.find? m with
  | some x =>
    simp only [mongoUpsert, hfind]
    rw [filter_replaceFirst_length m upd hupd store]
    have hmem : x ∈ store.filter m :=
      List.mem_filter.mpr ⟨List.mem_of_find?_eq_some hfind, List.find?_some hfind⟩
    have : 1 ≤ (store.filter m).length := List.length_pos.mpr (List.ne_nil_of_mem hmem)
    omega
  | none =>
    simp only [mongoUpsert, hfind]
    rw [List.filter_append]
    have : store.filter m = [] := by
      apply List.filter_eq_nil_iff.mpr
      intro x hx
      have := List.find?_eq_none.mp hfind x hx
      simpa using this
    simp [this, hins]

/-- C6: applying the Group upsert and the Release upsert twice with the same
input document yields exactly one stored matching record; its `createdAt` is
the value set by the first write, its `updatedAt` is non-decreasing and ends at
the second write's clock, and every other field equals the input document's
field. -/
theorem upsert_idempotent
    (gstore : List (Nat × GroupDoc)) (gdoc : GroupDoc)
    (astore : List (Nat × AlbumUpsertDoc)) (adoc : AlbumUpsertDoc)
    (t1 t2 gid1 gid2 aid1 aid2 : Nat)
    (hg : (gstore.filter (groupMatchQuery gdoc)).length ≤ 1)
    (ha : (astore.filter (albumMatchQuery adoc)).length ≤ 1)
    (ht : t1 ≤ t2) (hgu : gdoc.updatedAt ≤ t2) (hau : adoc.updatedAt ≤ t2) :
    (((save_or_update_group (save_or_update_group gstore gdoc t1 gid1) gdoc t2 gid2).filter
        (groupMatchQuery gdoc)).length = 1 ∧
     ∃ i r1 r2,
       (save_or_update_group gstore gdoc t1 gid1).find? (groupMatchQuery gdoc) =
         some (i, r1) ∧
       (save_or_update_group (save_or_update_group gstore gdoc t1 gid1) gdoc t2 gid2).find?
           (groupMatchQuery gdoc) = some (i, r2) ∧
       r2.createdAt = r1.createdAt ∧ r1.updatedAt ≤ r2.updatedAt ∧ r2.updatedAt = t2 ∧
       r2.name = gdoc.name ∧ r2.spotifyId = gdoc.spotifyId ∧ r2.payload = gdoc.payload) ∧
    (((save_or_update_album (save_or_update_album astore adoc t1 aid1) adoc t2 aid2).filter
        (albumMatchQuery adoc)).length = 1 ∧
     ∃ i r1 r2,
       (save_or_update_album astore adoc t1 aid1).find? (albumMatchQuery adoc) =
         some (i, r1) ∧
       (save_or_update_album (save_or_update_album astore adoc t1 aid1) adoc t2 aid2).find?
           (albumMatchQuery adoc) = some (i, r2) ∧
       r2.createdAt = r1.createdAt ∧ r1.updatedAt ≤ r2.updatedAt ∧ r2.updatedAt = t2 ∧
       r2.name = adoc.name ∧ r2.artistName = adoc.artistName ∧
       r2.spotifyId = adoc.spotifyId ∧ r2.payload = adoc.payload) := by
  constructor
  · have hupd1 : ∀ x : Nat × GroupDoc,
        groupMatchQuery gdoc
          ((fun existing : Nat × GroupDoc =>
            (existing.1, { gdoc with createdAt := existing.2.createdAt, updatedAt := t1})) x) = true := by
      intro x; simp [groupMatchQuery]
    have hupd2 : ∀ x : Nat × GroupDoc,
        groupMatchQuery gdoc
          ((fun existing : Nat × GroupDoc =>
            (existing.1, { gdoc with createdAt := existing.2.createdAt, updatedAt := t2})) x) = true := by
      intro x; simp [groupMatchQuery]
    have hins1 : groupMatchQuery gdoc (gid1, gdoc) = true := by simp [groupMatchQuery]
    have hins2 : groupMatchQuery gdoc (gid2, gdoc) = true := by simp [groupMatchQuery]
    unfold save_or_update_group
    have hf1 := mongoUpsert_find (groupMatchQuery gdoc) _ _ gstore hupd1 hins1
    have hc1 := mongoUpsert_count (groupMatchQuery gdoc) _ _ gstore hupd1 hins1 hg
    have hf2 := mongoUpsert_find (groupMatchQuery gdoc) _ _
      (mongoUpsert (groupMatchQuery gdoc)
        (fun existing => (existing.1, { gdoc with createdAt := existing.2.createdAt, updatedAt := t1}))
        (gid1, gdoc) gstore) hupd2 hins2
    have hc2 := mongoUpsert_count (groupMatchQuery gdoc) _ _
      (mongoUpsert (groupMatchQuery gdoc)
        (fun existing => (existing.1, { gdoc with createdAt := existing.2.createdAt, updatedAt := t1}))
        (gid1, gdoc) gstore) hupd2 hins2 (Nat.le_of_eq hc1)
    refine ⟨hc2, ?_⟩
    rw [hf1] at hf2
    cases hfind : gstore.find? (groupMatchQuery gdoc) with
    | none =>
      rw [hfind] at hf1 hf2
      exact ⟨gid1, gdoc, { gdoc with createdAt := gdoc.createdAt, updatedAt := t2 },
        hf1, hf2, rfl, hgu, rfl, rfl, rfl, rfl⟩
    | some x =>
      rw [hfind] at hf1 hf2
      exact ⟨x.1, { gdoc with createdAt := x.2.createdAt, updatedAt := t1 },
        { gdoc with createdAt := x.2.createdAt, updatedAt := t2 },
        hf1, hf2, rfl, ht, rfl, rfl, rfl, rfl⟩
  · have hupd1 : ∀ x : Nat × AlbumUpsertDoc,
        albumMatchQuery adoc
          ((fun existing : Nat × AlbumUpsertDoc =>
            (existing.1, { adoc with createdAt := existing.2.createdAt, updatedAt := t1 })) x) = true := by
      intro x; simp [albumMatchQuery]
    have hupd2 : ∀ x : Nat × AlbumUpsertDoc,
        albumMatchQuery adoc
          ((fun existing : Nat × AlbumUpsertDoc =>
            (existing.1, { adoc with createdAt := existing.2.createdAt, updatedAt := t2 })) x) = true := by
      intro x; simp [albumMatchQuery]
    have hins1 : albumMatchQuery adoc (aid1, adoc) = true := by simp [albumMatchQuery]
    have hins2 : albumMatchQuery adoc (aid2, adoc) = true := by simp [albumMatchQuery]
    unfold save_or_update_album
    have hf1 := mongoUpsert_find (albumMatchQuery adoc) _ _ astore hupd1 hins1
    have hc1 := mongoUpsert_count (albumMatchQuery adoc) _ _ astore hupd1 hins1 ha
    have hf2 := mongoUpsert_find (albumMatchQuery adoc) _ _
      (mongoUpsert (albumMatchQuery adoc)
        (fun existing => (existing.1, { adoc with createdAt := existing.2.createdAt, updatedAt := t1 }))
        (aid1, adoc) astore) hupd2 hins2
    have hc2 := mongoUpsert_count (albumMatchQuery adoc) _ _
      (mongoUpsert (albumMatchQuery adoc)
        (fun existing => (existing.1, { adoc with createdAt := existing.2.createdAt, updatedAt := t1}))
        (aid1, adoc) astore) hupd2 hins2 (Nat.le_of_eq hc1)
    refine ⟨hc2, ?_⟩
    rw [hf1] at hf2
    cases hfind : astore.find? (albumMatchQuery adoc) with
    | none =>
      rw [hfind] at hf1 hf2
      exact ⟨aid1, adoc, { adoc with createdAt := adoc.createdAt, updatedAt := t2 },
        hf1, hf2, rfl, hau, rfl, rfl, rfl, rfl, rfl⟩
    | some x =>
      rw [hfind] at hf1 hf2
      exact ⟨x.1, { adoc with createdAt := x.2.createdAt, updatedAt := t1 },
        { adoc with createdAt := x.2.createdAt, updatedAt := t2 },
        hf1, hf2, rfl, ht, rfl, rfl, rfl, rfl, rfl⟩

/-- Witness for the upsert theorem at a concrete document and empty stores. -/
theorem upsert_idempotent_witness :
    ((save_or_update_group
        (save_or_update_group [] ⟨"TWICE", some "tw0000000000000000000x", "p", 100, 100⟩ 100 1)
        ⟨"TWICE", some "tw0000000000000000000x", "p", 100, 100⟩ 200 2).filter
      (groupMatchQuery ⟨"TWICE", some "tw0000000000000000000x", "p", 100, 100⟩)).length = 1 :=
  (upsert_idempotent [] ⟨"TWICE", some "tw0000000000000000000x", "p", 100, 100⟩
    [] ⟨"Formula of Love", "TWICE", "fo0000000000000000000x", "p", 100, 100⟩
    100 200 1 2 3 4 (by decide) (by decide) (by decide) (by decide) (by decide)).1.1

/-- C1: on a 429 whose `Retry-After` is 700 seconds (beyond the 600-second
ceiling) the revalidation aborts immediately with a plain `False` (no sleep, no
retry: the follow-up response is never consumed, unlike the 500-second case
which waits and retries) — but the affected group is then marked permanently
inactive through the generic invalid-reason path: `isActive := false`,
`rateLimited` stays unset and no 24-hour `retryAfter` window is written,
because the fixed reason string `"Pas K-pop ou artiste inexistant"` never
matches `mark_group_as_invalid`'s rate-limit test.  The quarantined-retryable
transition the claim (and the source's own `# Marquer le groupe pour réessai
plus tard` comment, line 242) describes is unreachable from this path. -/
theorem rate_limit_ceiling_no_quarantine (now : Nat) :
    validate_kpop_artist_by_id [.rateLimited 700, .ok "TWICE" ["k-pop"]] = false ∧
    validate_kpop_artist_by_id [.rateLimited 500, .ok "TWICE" ["k-pop"]] = true ∧
    clean_albums_for_group_validate ⟨true, false, none, none⟩ [.rateLimited 700] now =
      ⟨false, false, none, some "Pas K-pop ou artiste inexistant"⟩ ∧
    mark_group_as_invalid ⟨true, false, none, none⟩ "Rate limiting 700s" now =
      ⟨true, true, some (now + 86400), none⟩ := by
  refine ⟨by decide, by decide, rfl, rfl⟩

set_option maxRecDepth 4000 in
/-- C9: a revalidation/cleanup run that completes normally returns no
statistics report at all: `cleanup_invalid_spotify_artists` computes its
`checked` / `invalid` / `rate-limited` counters but falls off the end of the
`try` block (Python `None`); only the exception handler returns a stats
dictionary.  The counters for a one-group run that validates successfully are
computed — and then discarded. -/
theorem cleanup_returns_no_stats :
    cleanup_invalid_spotify_artists [("TWICE", .ok "TWICE" ["k-pop"])] = none ∧
    cleanup_counters [("TWICE", .ok "TWICE" ["k-pop"])] =
      { invalid_count := 0, rate_limited_count := 0, checked_count := 1 } := by
  constructor
  · rfl
  · have hsim : calculate_name_similarity "TWICE" "TWICE" = 1 := by
      simp only [calculate_name_similarity]
      rw [show pyStrip (pyLower "TWICE") = "twice" from rfl]
      rw [show containsSub "twice".toList "twice".toList = true from rfl]
      rw [show matcherScore "twice".toList "twice".toList =
            (2 * (5 : ℕ) : ℚ) / ((10 : ℕ) : ℚ) by
          simp only [matcherScore]
          rw [show "twice".toList.length + "twice".toList.length = 10 from rfl]
          rw [show smTotal "twice".toList "twice".toList 0 "twice".toList.length 0
                "twice".toList.length (10 + 1) = 5 by decide]
          norm_num]
      rw [max_eq_left (by norm_num : (4 : ℚ) / 5 ≤ 2 * (5 : ℕ) / ((10 : ℕ) : ℚ))]
      norm_num
    have hkpop : (["k-pop"].any fun genre =>
        cleanerKpopGenres.any fun kpop_genre => strContains (pyLower genre) kpop_genre) = true := by
      decide
    have hdec : cleanup_artist_decision "TWICE" "TWICE" ["k-pop"] = CleanupDecision.keep := by
      simp only [cleanup_artist_decision, hkpop, hsim]
      norm_num
    simp [cleanup_counters, cleanup_step, hdec]

/-- C5 counterexample input: a 3-track release as returned by the provider. -/
def threeTrackRelease : SpotifyAlbum :=
  { id := "cryforme0000000000000x"
    name := "Cry For Me"
    release_date := "2020-12-04"
    total_tracks := 3
    album_type := "single"
    album_group := "album"
    artists := [⟨"tw0000000000000000000x", "TWICE"⟩] }

/-- C5 (counterexample): the claim says a 3-track release is excluded from
every persisting path, but the cleaner's validator accepts any release with at
least one track, and `clean_albums_for_group` inserts the resulting document —
with the provider's own `album_type`, not a kind derived from the track
count. -/
theorem cleaner_persists_three_track :
    is_valid_spotify_release threeTrackRelease = true ∧
    (Cleaner.persistedAlbumDocs [threeTrackRelease] [] "tw0000000000000000000x" "TWICE" 7).map
      (fun d => (d.totalTracks, d.albumType)) = [(3, "single")] := by
  exact ⟨by decide, by decide⟩

/-- C5 (amended): in the collector's artist-id harvest path every persisted
document derives its kind from the track count — 8 tracks is stored as
`album`, 6 tracks as `ep`, and 3-track releases never get through
`is_valid_release_simple` — while the cleaner's path accepts a 3-track release
(validator floor is 1 track) and stores the provider-reported `album_type`. -/
theorem release_kind_derivation (items : List SpotifyAlbum) (artist_id : String)
    (gid : Nat) (gname : String) (d : Collector.AlbumDoc)
    (hd : d ∈ Collector.persistedAlbumDocs items artist_id gid gname) :
    ((d.totalTracks = 8 → d.albumType = "album") ∧
     (d.totalTracks = 6 → d.albumType = "ep") ∧
     d.totalTracks ≠ 3) ∧
    (Cleaner.persistedAlbumDocs [threeTrackRelease] [] "tw0000000000000000000x" "TWICE" 7).map
      (fun d => (d.totalTracks, d.albumType)) = [(3, "single")] := by
  refine ⟨?_, by decide⟩
  rcases List.mem_map.mp hd with ⟨r, hr, hcreate⟩
  have hvalid : is_valid_release_simple r = true :=
    ((Bool.and_eq_true _ _).mp (List.mem_filter.mp hr).2).2
  have htracks : 4 ≤ r.total_tracks := by
    by_contra hlt
    rw [is_valid_release_simple] at hvalid
    rw [if_pos (by omega : r.total_tracks < 4)] at hvalid
    exact Bool.false_ne_true hvalid
  have htt : d.totalTracks = r.total_tracks := by rw [← hcreate]; rfl
  refine ⟨?_, ?_, ?_⟩
  · intro h8
    rw [← hcreate]
    simp only [Collector.create_album_document]
    rw [if_pos (by omega : 8 ≤ r.total_tracks)]
  · intro h6
    rw [← hcreate]
    simp only [Collector.create_album_document]
    rw [if_neg (by omega : ¬ 8 ≤ r.total_tracks), if_pos (by omega : 4 ≤ r.total_tracks)]
  · omega

/-! ## Name-similarity evaluations (claim C2) -/

theorem matcherScore_eval (a b : List Char) (M T : ℕ)
    (hT : a.length + b.length = T) (hTpos : T ≠ 0)
    (hM : smTotal a b 0 a.length 0 b.length (T + 1) = M) :
    matcherScore a b = (2 * (M : ℚ)) / (T : ℚ) := by
  simp only [matcherScore]
  rw [hT, hM, if_neg hTpos]

set_option maxRecDepth 4000 in
theorem calc_sim_twice : calculate_name_similarity "TWICE" "Twice" = 1 := by
  simp only [calculate_name_similarity]
  rw [show pyStrip (pyLower "TWICE") = "twice" from rfl,
      show pyStrip (pyLower "Twice") = "twice" from rfl,
      matcherScore_eval "twice".toList "twice".toList 5 10 rfl (by decide) (by decide),
      show containsSub "twice".toList "twice".toList = true by decide]
  norm_num [max_def]

set_option maxRecDepth 4000 in
theorem calc_sim_twice_ent :
    calculate_name_similarity "TWICE" "Twice Entertainment" = 4 / 5 := by
  simp only [calculate_name_similarity]
  rw [show pyStrip (pyLower "TWICE") = "twice" from rfl,
      show pyStrip (pyLower "Twice Entertainment") = "twice entertainment" from rfl,
      matcherScore_eval "twice".toList "twice entertainment".toList 5 24 rfl
        (by decide) (by decide),
      show containsSub "twice entertainment".toList "twice".toList = true by decide]
  norm_num [max_def]

set_option maxRecDepth 4000 in
theorem calc_sim_blackpink :
    calculate_name_similarity "TWICE" "Blackpink" = 1 / 7 := by
  simp only [calculate_name_similarity]
  rw [show pyStrip (pyLower "TWICE") = "twice" from rfl,
      show pyStrip (pyLower "Blackpink") = "blackpink" from rfl,
      matcherScore_eval "twice".toList "blackpink".toList 1 14 rfl
        (by decide) (by decide),
      show containsSub "blackpink".toList "twice".toList = false by decide,
      show containsSub "twice".toList "blackpink".toList = false by decide]
  norm_num

/-- C2 (counterexample): the claim says the similarity of
`("TWICE", "Twice Entertainment")` falls below the 0.6 acceptance threshold,
but the substring floor raises it to exactly 0.8, which is not below 0.6. -/
theorem similarity_not_below_threshold :
    ¬ (calculate_name_similarity "TWICE" "Twice Entertainment" < 3 / 5) := by
  rw [calc_sim_twice_ent]
  norm_num

/-- C2 (amended): `("TWICE", "Twice")` has similarity 1 ≥ 0.8, and
`("TWICE", "Twice Entertainment")` has similarity exactly 0.8 — the substring
floor — which is at or above the 0.6 threshold, so revalidation keeps both
(decision `keep`); a genuinely dissimilar name (similarity 1/7 < 0.6) makes the
revalidation delete the group and its albums outright (decision
`deleteNameMismatch`) rather than transition it to `inactive`. -/
theorem similarity_values :
    calculate_name_similarity "TWICE" "Twice" = 1 ∧
    (4 / 5 : ℚ) ≤ calculate_name_similarity "TWICE" "Twice" ∧
    calculate_name_similarity "TWICE" "Twice Entertainment" = 4 / 5 ∧
    (3 / 5 : ℚ) ≤ calculate_name_similarity "TWICE" "Twice Entertainment" ∧
    cleanup_artist_decision "TWICE" "Twice" ["k-pop"] = .keep ∧
    cleanup_artist_decision "TWICE" "Twice Entertainment" ["k-pop"] = .keep ∧
    cleanup_artist_decision "TWICE" "Blackpink" ["k-pop"] = .deleteNameMismatch := by
  have hkpop : (["k-pop"].any fun genre =>
      cleanerKpopGenres.any fun kpop_genre => strContains (pyLower genre) kpop_genre) = true := by
    decide
  refine ⟨calc_sim_twice, by rw [calc_sim_twice]; norm_num, calc_sim_twice_ent,
    by rw [calc_sim_twice_ent]; norm_num, ?_, ?_, ?_⟩
  · simp only [cleanup_artist_decision, hkpop, calc_sim_twice]
    norm_num
  · simp only [cleanup_artist_decision, hkpop, calc_sim_twice_ent]
    norm_num
  · simp only [cleanup_artist_decision, hkpop, calc_sim_blackpink]
    norm_num

/-! ## Classifier claims (C7) -/

/-- C7 counterexample input: a K-pop-genre artist whose lowercased name
contains the substring "ost". -/
def ghostArtist : SpotifyArtist :=
  { id := "gh000000000000000000xx", name := "Ghost", genres := ["k-pop"], popularity := 50 }

/-- C7 (counterexample): the claim's acceptance condition (with its
five-entry suspicious-pattern list) accepts the artist "Ghost" (K-pop genre,
popularity 50), but the source classifier rejects it: its regex also contains
the alternatives `ost` and `compilation`, and "ghost" contains "ost". -/
theorem classifier_rejects_claim_accepted :
    is_valid_kpop_spotify_artist ghostArtist = false ∧
    claimGroupAccept ghostArtist = true := by
  constructor
  · decide
  · decide

theorem nameEmpty_absorb (artist : SpotifyArtist) :
    (decide (artist.name = "") || decide ((pyStrip artist.name).length < 2)) =
      !decide (2 ≤ (pyStrip artist.name).length) := by
  by_cases h : artist.name = ""
  · rw [h]
    decide
  · simp only [h, decide_eq_false_iff_not, decide_eq_true_eq]
    by_cases hl : (pyStrip artist.name).length < 2
    · simp [hl, show ¬ 2 ≤ (pyStrip artist.name).length by omega]
    · simp [hl, show 2 ≤ (pyStrip artist.name).length by omega]

/-- C7 (amended): the source classifier accepts an artist exactly when the
claim's five conditions hold with the suspicious-pattern list extended by the
source's `ost` and `compilation` alternatives (and the length check read on the
trimmed name). -/
theorem classifier_matches_spec (artist : SpotifyArtist) :
    is_valid_kpop_spotify_artist artist = true ↔ claimGroupAcceptFull artist = true := by
  simp only [is_valid_kpop_spotify_artist, claimGroupAcceptFull]
  rw [nameEmpty_absorb]
  by_cases h1 : ((artist.genres.map pyLower).any fun g =>
      strContains g "k-pop" || strContains g "korean") = true <;>
  by_cases h2 : looks_like_kpop_name artist.name = true <;>
  by_cases h3 : 30 < artist.popularity <;>
  by_cases h4 : 2 ≤ (pyStrip artist.name).length <;>
  by_cases h5 : artist.popularity < 5 <;>
  by_cases h6 : (labelKeywords.any fun k => strContains (pyLower artist.name) k) = true <;>
  by_cases h7 : suspiciousArtistName (pyLower artist.name).toList = true <;>
  simp [h1, h2, h3, h4, h5, h6, h7, Nat.not_lt, Nat.not_le] <;>
  omega

/-- Concrete 8-track release used by witnesses. -/
def eightTrackRelease : SpotifyAlbum :=
  { id := "formula0000000000000x0"
    name := "Formula of Love"
    release_date := "2021-11-12"
    total_tracks := 8
    album_type := "album"
    album_group := "album"
    artists := [⟨"tw0000000000000000000x", "TWICE"⟩] }

/-- Witness for the merge-dedup theorem: the same release id in both the
authoritative and the search set yields one `official`-tagged record. -/
theorem merge_dedup_authoritative_witness :
    ((merge_albums [eightTrackRelease] [eightTrackRelease]).filter
      fun t => decide (t.album.id = "formula0000000000000x0")).length = 1 ∧
    ∀ t ∈ merge_albums [eightTrackRelease] [eightTrackRelease],
      t.album.id = "formula0000000000000x0" → t.discovery_method = "official" :=
  merge_dedup_authoritative [eightTrackRelease] [eightTrackRelease]
    "formula0000000000000x0" (by decide) (by decide)

/-- Witness for the search-ownership theorem at the concrete
secondary-slot album. -/
theorem search_ownership_witness :
    (∀ a ∈ ([] : List SpotifyAlbum), a.id ≠ "" →
      a.id ≠ (TaggedAlbum.mk secondarySlotAlbum "search").album.id) ∧
    verify_album_belongs_to_artist
      (TaggedAlbum.mk secondarySlotAlbum "search").album
      "targetartist000000000x" "TWICE" = true ∧
    is_valid_spotify_release (TaggedAlbum.mk secondarySlotAlbum "search").album = true :=
  search_ownership [] [secondarySlotAlbum] "targetartist000000000x" "TWICE"
    (TaggedAlbum.mk secondarySlotAlbum "search") (by decide) rfl

/-- Witness for the release-kind theorem at a concrete 8-track release. -/
theorem release_kind_derivation_witness :
    (((Collector.create_album_document eightTrackRelease 1 "TWICE").totalTracks = 8 →
        (Collector.create_album_document eightTrackRelease 1 "TWICE").albumType = "album") ∧
      ((Collector.create_album_document eightTrackRelease 1 "TWICE").totalTracks = 6 →
        (Collector.create_album_document eightTrackRelease 1 "TWICE").albumType = "ep") ∧
      (Collector.create_album_document eightTrackRelease 1 "TWICE").totalTracks ≠ 3) ∧
    (Cleaner.persistedAlbumDocs [threeTrackRelease] [] "tw0000000000000000000x" "TWICE" 7).map
      (fun d => (d.totalTracks, d.albumType)) = [(3, "single")] :=
  release_kind_derivation [eightTrackRelease] "tw0000000000000000000x" 1 "TWICE"
    (Collector.create_album_document eightTrackRelease 1 "TWICE") (by decide)

/-! ## Discovery-phase lemmas (claim C10) -/

theorem dedupById_keysNodup (l : List SpotifyArtist) :
    ((dedupById l).map Prod.fst).Nodup := by
  have main : ∀ (ls : List SpotifyArtist) (d : List (String × SpotifyArtist)),
      (d.map Prod.fst).Nodup →
      ((ls.foldl (fun d artist =>
          if d.any (fun e => e.1 = artist.id) then d
          else d ++ [(artist.id, artist)]) d).map Prod.fst).Nodup := by
    intro ls
    induction ls with
    | nil => intro d hd; simpa using hd
    | cons a rest ih =>
      intro d hd
      simp only [List.foldl_cons]
      apply ih
      by_cases hx : (d.any fun e => e.1 = a.id) = true
      · simpa [hx] using hd
      · simp only [hx, if_false, Bool.false_eq_true, List.map_append, List.map_cons,
          List.map_nil]
        rw [List.nodup_append]
        refine ⟨hd, by simp, ?_⟩
        intro x hxmem hxs
        simp only [List.mem_singleton] at hxs
        subst hxs
        rcases List.mem_map.mp hxmem with ⟨e, he, hfst⟩
        have : (d.any fun e => e.1 = a.id) = true :=
          List.any_eq_true.mpr ⟨e, he, by simpa using hfst⟩
        exact absurd this (by simpa using hx)
  exact main l [] (by simp)

theorem dedupById_provenance (l : List SpotifyArtist) :
    ∀ e ∈ dedupById l, e.2.id = e.1 ∧ e.2 ∈ l := by
  have main : ∀ (ls : List SpotifyArtist) (d : List (String × SpotifyArtist)),
      ∀ e ∈ (ls.foldl (fun d artist =>
          if d.any (fun e => e.1 = artist.id) then d
          else d ++ [(artist.id, artist)]) d),
        e ∈ d ∨ (e.2.id = e.1 ∧ e.2 ∈ ls) := by
    intro ls
    induction ls with
    | nil => intro d e he; exact Or.inl (by simpa using he)
    | cons a rest ih =>
      intro d e he
      simp only [List.foldl_cons] at he
      rcases ih _ e he with hin | ⟨h1, h2⟩
      · by_cases hx : (d.any fun e => e.1 = a.id) = true
        · rw [if_pos hx] at hin
          exact Or.inl hin
        · rw [if_neg hx] at hin
          rcases List.mem_append.mp hin with h | h
          · exact Or.inl h
          · simp only [List.mem_singleton] at h
            subst h
            exact Or.inr ⟨rfl, List.mem_cons_self _ _⟩
      · exact Or.inr ⟨h1, List.mem_cons_of_mem _ h2⟩
  intro e he
  rcases main l [] e he with h | h
  · simp at h
  · exact h

theorem pageStep_preserves (names0 processed0 : List String)
    (st : List SpotifyArtist × List String) (a : SpotifyArtist)
    (h1 : ∀ x ∈ st.1, x.id ∉ processed0 ∧ pyStrip (pyLower x.name) ∉ names0)
    (h2 : ∀ k ∈ processed0, k ∈ st.2) :
    (∀ x ∈ (pageStep names0 st a).1,
      x.id ∉ processed0 ∧ pyStrip (pyLower x.name) ∉ names0) ∧
    (∀ k ∈ processed0, k ∈ (pageStep names0 st a).2) := by
  by_cases hc : (is_valid_kpop_spotify_artist a && !(decide (a.id ∈ st.2)) &&
      !(decide (pyStrip (pyLower a.name) ∈ names0))) = true
  · have hcond := hc
    simp only [Bool.and_eq_true, Bool.not_eq_true', decide_eq_false_iff_not] at hcond
    obtain ⟨⟨hval, hid⟩, hname⟩ := hcond
    simp only [pageStep, hc, if_true]
    constructor
    · intro x hx
      rcases List.mem_append.mp hx with hx | hx
      · exact h1 x hx
      · simp only [List.mem_singleton] at hx
        subst hx
        exact ⟨fun hmem => hid (h2 _ hmem), hname⟩
    · intro k hk
      exact List.mem_append_left _ (h2 k hk)
  · simp only [pageStep, hc, if_false, Bool.false_eq_true]
    exact ⟨h1, h2⟩

theorem pageFold_preserves (names0 processed0 : List String) :
    ∀ (page : List SpotifyArtist) (st : List SpotifyArtist × List String),
      (∀ x ∈ st.1, x.id ∉ processed0 ∧ pyStrip (pyLower x.name) ∉ names0) →
      (∀ k ∈ processed0, k ∈ st.2) →
      (∀ x ∈ (page.foldl (pageStep names0) st).1,
        x.id ∉ processed0 ∧ pyStrip (pyLower x.name) ∉ names0) ∧
      (∀ k ∈ processed0, k ∈ (page.foldl (pageStep names0) st).2) := by
  intro page
  induction page with
  | nil => intro st h1 h2; exact ⟨h1, h2⟩
  | cons a rest ih =>
    intro st h1 h2
    simp only [List.foldl_cons]
    have h := pageStep_preserves names0 processed0 st a h1 h2
    exact ih _ h.1 h.2

theorem searchDiscoveryGo_cons (n : List String) (page : List SpotifyArtist)
    (rest : List (List SpotifyArtist)) (f : Nat)
    (st : List SpotifyArtist × List String) :
    searchDiscoveryGo n (page :: rest) (f + 1) st =
      if page = [] then st
      else if page.length < 50 then page.foldl (pageStep n) st
      else searchDiscoveryGo n rest f (page.foldl (pageStep n) st) := rfl

theorem searchGo_preserves (names0 processed0 : List String) :
    ∀ (pages : List (List SpotifyArtist)) (fuel : Nat)
      (st : List SpotifyArtist × List String),
      (∀ x ∈ st.1, x.id ∉ processed0 ∧ pyStrip (pyLower x.name) ∉ names0) →
      (∀ k ∈ processed0, k ∈ st.2) →
      (∀ x ∈ (searchDiscoveryGo names0 pages fuel st).1,
        x.id ∉ processed0 ∧ pyStrip (pyLower x.name) ∉ names0) ∧
      (∀ k ∈ processed0, k ∈ (searchDiscoveryGo names0 pages fuel st).2) := by
  intro pages
  induction pages with
  | nil =>
    intro fuel st h1 h2
    cases fuel with
    | zero => exact ⟨h1, h2⟩
    | succ f => exact ⟨h1, h2⟩
  | cons page rest ih =>
    intro fuel st h1 h2
    cases fuel with
    | zero => exact ⟨h1, h2⟩
    | succ f =>
      rw [searchDiscoveryGo_cons]
      by_cases hp : page = []
      · simp only [hp, if_true]
        exact ⟨h1, h2⟩
      · simp only [hp, if_false]
        have h := pageFold_preserves names0 processed0 page st h1 h2
        by_cases hl : page.length < 50
        · simp only [hl, if_true]
          exact h
        · simp only [hl, if_false]
          exact ih f _ h.1 h.2

theorem discoverFold_preserves (names0 processed0 : List String) :
    ∀ (qrs : List (List (List SpotifyArtist)))
      (st : List SpotifyArtist × List String),
      (∀ x ∈ st.1, x.id ∉ processed0 ∧ pyStrip (pyLower x.name) ∉ names0) →
      (∀ k ∈ processed0, k ∈ st.2) →
      (∀ x ∈ (qrs.foldl (fun st pages =>
          let r := search_kpop_artists_discovery pages st.2 names0
          (st.1 ++ r.1, r.2)) st).1,
        x.id ∉ processed0 ∧ pyStrip (pyLower x.name) ∉ names0) := by
  intro qrs
  induction qrs with
  | nil => intro st h1 h2; simpa using h1
  | cons pages rest ih =>
    intro st h1 h2
    simp only [List.foldl_cons]
    have hr := searchGo_preserves names0 processed0 pages 20 ([], st.2)
      (by simp) (fun k hk => h2 k hk)
    apply ih
    · intro x hx
      rcases List.mem_append.mp hx with hx | hx
      · exact h1 x hx
      · exact hr.1 x hx
    · exact hr.2

/-- C10: the discovery phase's output has pairwise-distinct provider ids, is
sorted by popularity in non-increasing order, and contains no artist whose
provider id or lowercased-trimmed name was already in the caches loaded at run
start (`processed_spotify_ids` / `existing_group_names`). -/
theorem discovery_output_clean
    (query_responses : List (List (List SpotifyArtist)))
    (processed0 names0 : List String) :
    ((discover_new_kpop_artists query_responses processed0 names0).map
        SpotifyArtist.id).Nodup ∧
    ((discover_new_kpop_artists query_responses processed0 names0).Pairwise
        fun x y => y.popularity ≤ x.popularity) ∧
    ∀ a ∈ discover_new_kpop_artists query_responses processed0 names0,
      a.id ∉ processed0 ∧ pyStrip (pyLower a.name) ∉ names0 := by
  have hperm := perm_isortD gePop
    ((dedupById (query_responses.foldl (fun st pages =>
        let r := search_kpop_artists_discovery pages st.2 names0
        (st.1 ++ r.1, r.2)) (([] : List SpotifyArtist), processed0)).1).map Prod.snd)
  refine ⟨?_, ?_, ?_⟩
  · simp only [discover_new_kpop_artists]
    have h1 := (hperm.map SpotifyArtist.id).nodup_iff
    rw [h1]
    rw [List.map_map]
    have h2 : ((dedupById (query_responses.foldl (fun st pages =>
        let r := search_kpop_artists_discovery pages st.2 names0
        (st.1 ++ r.1, r.2)) (([] : List SpotifyArtist), processed0)).1).map
          (SpotifyArtist.id ∘ Prod.snd)) =
        ((dedupById (query_responses.foldl (fun st pages =>
          let r := search_kpop_artists_discovery pages st.2 names0
          (st.1 ++ r.1, r.2)) (([] : List SpotifyArtist), processed0)).1).map Prod.fst) := by
      apply List.map_congr_left
      intro e he
      exact (dedupById_provenance _ e he).1
    rw [h2]
    exact dedupById_keysNodup _
  · simp only [discover_new_kpop_artists]
    have := pairwise_isortD gePop
      (fun a b => by
        rcases Nat.le_total b.popularity a.popularity with h | h
        · exact Or.inl (by simpa [gePop] using h)
        · exact Or.inr (by simpa [gePop] using h))
      (fun a b c hab hbc => by
        simp only [gePop, decide_eq_true_eq] at hab hbc ⊢
        omega)
      ((dedupById (query_responses.foldl (fun st pages =>
          let r := search_kpop_artists_discovery pages st.2 names0
          (st.1 ++ r.1, r.2)) (([] : List SpotifyArtist), processed0)).1).map Prod.snd)
    exact this.imp fun h => by simpa [gePop] using h
  · intro a ha
    simp only [discover_new_kpop_artists] at ha
    have hvals := hperm.mem_iff.mp ha
    rcases List.mem_map.mp hvals with ⟨e, he, hsnd⟩
    have hprov := (dedupById_provenance _ e he).2
    have hall := discoverFold_preserves names0 processed0 query_responses
      ([], processed0) (by simp) (fun k hk => hk)
    exact hsnd ▸ hall e.2 hprov

/-- Concrete artist used by the discovery witness. -/
def itzyArtist : SpotifyArtist :=
  { id := "itzy0000000000000000xx", name := "ITZY", genres := ["k-pop"], popularity := 70 }

/-- Witness for the discovery theorem: a concrete run with one page and one
valid artist, against caches that do not contain it. -/
theorem discovery_output_clean_witness :
    itzyArtist.id ∉ (["known00000000000000000"] : List String) ∧
    pyStrip (pyLower itzyArtist.name) ∉ (["bts"] : List String) :=
  (discovery_output_clean [[[itzyArtist]]] ["known00000000000000000"] ["bts"]).2.2
    itzyArtist (by decide)
